import Mathlib

/-!
# tty_forward: a shallow embedding of `main.c`

The program opens two serial devices, configures them, and relays bytes
between them with a blocking `select` loop.  This file embeds the C source
function by function and proves properties of the embedded functions.

Conventions of the embedding

* A C string is the list of its characters before the terminating NUL.
* A C `int` is an `Int`; where the source converts to `int`, the wrap modulo
  `2^32` is explicit (`to_int`).
* `tcflag_t` and `speed_t` values are `Nat`; `x & ~m` is `clear_bits x m`.
* The operating system is a parameter: a record of transition functions on
  an abstract world `σ` (`OS σ`).  The theorems hold for every such record.
* Every library call the program makes is appended to a trace of `Event`s.
* `malloc` is assumed to succeed and hands out block numbers in increasing
  order, so two live handles never share an address.
-/

namespace TtyForward

/-! ## C strings and `atoi` -/

/-- Value of a `char *` variable: not yet written, the null pointer, or a
pointer to a string. -/
inductive CharPtr where
  | uninit : CharPtr
  | null : CharPtr
  | str (cs : List Char) : CharPtr
  deriving DecidableEq, Repr

/-- The predicate `isspace` of the C locale. -/
def isspace (c : Char) : Bool :=
  c.toNat = 32 || (9 ≤ c.toNat && c.toNat ≤ 13)

/-- The predicate `isdigit`. -/
def isdigit (c : Char) : Bool :=
  48 ≤ c.toNat && c.toNat ≤ 57

/-- Accumulates the leading decimal digits of a string onto `acc`. -/
def digits_value : List Char → Nat → Nat
  | [], acc => acc
  | c :: cs, acc =>
    if isdigit c then digits_value cs (10 * acc + (c.toNat - 48)) else acc

/-- Largest value of a C `long` on the 64-bit target. -/
def LONG_MAX : Int := 2 ^ 63 - 1

/-- Smallest value of a C `long` on the 64-bit target. -/
def LONG_MIN : Int := -(2 ^ 63)

/-- The call `strtol(nptr, NULL, 10)`: white space is skipped, one optional
sign is read, the leading digits are accumulated, and a value out of the
range of `long` saturates. -/
def strtol10 (nptr : List Char) : Int :=
  match nptr.dropWhile isspace with
  | [] => 0
  | c :: cs =>
    if c = '-' then max LONG_MIN (-(digits_value cs 0 : Int))
    else if c = '+' then min LONG_MAX (digits_value cs 0 : Int)
    else min LONG_MAX (digits_value (c :: cs) 0 : Int)

/-- Conversion of a `long` to `int`: the value modulo `2^32`, as a signed
32-bit number. -/
def to_int (x : Int) : Int :=
  (x + 2 ^ 31) % 2 ^ 32 - 2 ^ 31

/-- The library function `atoi`, which is `(int) strtol(nptr, NULL, 10)`. -/
def atoi (nptr : List Char) : Int :=
  to_int (strtol10 nptr)

/-- The library function `strchr(s, c)` for `c` other than NUL: the offset
of the first occurrence of `c` in `s`, or `none` for the null pointer. -/
def strchr : List Char → Char → Option Nat
  | [], _ => none
  | x :: xs, c => if x = c then some 0 else (strchr xs c).map (· + 1)

/-! ## `parse_serial_name` -/

/-- What `parse_serial_name` leaves in its two out-parameters: the content
of `*name`, and the content of `*baud` (`none` when `baud` is the null
pointer, so that nothing was stored). -/
structure ParseOut where
  name : CharPtr
  baud : Option Int
  deriving DecidableEq, Repr

/-- The function `parse_serial_name(s, name, baud, defbaud)`.

`name` is `none` when the pointer `name` is null and `some p` when it points
to a `char *` variable currently holding `p`; likewise `baud`.  The result is
`none` when the function stores through the null pointer `name` (both
`else` branches do `*name = NULL`).

With `ss = strdup(s)` and `tmp = strchr(ss, ',')` at offset `i`:
`tmp[1] != '\0'` says that `s.drop (i + 1)` is not empty, `&tmp[1]` is
`s.drop (i + 1)`, `tmp != ss` says `i ≠ 0`, and after `*tmp = '\0'` the
string `ss` is `s.take i`. -/
def parse_serial_name (s : List Char) (name : Option CharPtr)
    (baud : Option Int) (defbaud : Int) : Option ParseOut :=
  let ss := s
  match strchr ss ',' with
  | none =>
    let baud1 := baud.map (fun _ => defbaud)
    match name with
    | some _ => some { name := CharPtr.str ss, baud := baud1 }
    | none => none
  | some i =>
    let baud1 := baud.map (fun _ =>
      if ss.drop (i + 1) ≠ [] then atoi (ss.drop (i + 1)) else defbaud)
    match name with
    | some p =>
      if i ≠ 0 then some { name := CharPtr.str (ss.take i), baud := baud1 }
      else some { name := p, baud := baud1 }
    | none => none

/-! ## Terminal configuration (`struct termios`) and the header constants -/

/-- The structure `struct termios` of the C library on Linux. -/
structure Termios where
  c_iflag : Nat
  c_oflag : Nat
  c_cflag : Nat
  c_lflag : Nat
  c_line : Nat
  c_cc : Fin 32 → Nat
  c_ispeed : Nat
  c_ospeed : Nat
  deriving DecidableEq

/-- What `bzero` leaves in a `struct termios`. -/
def Termios.zero : Termios :=
  { c_iflag := 0, c_oflag := 0, c_cflag := 0, c_lflag := 0, c_line := 0,
    c_cc := fun _ => 0, c_ispeed := 0, c_ospeed := 0 }

/-- The expression `x & ~m` on a 32-bit unsigned flag word. -/
def clear_bits (x m : Nat) : Nat :=
  x &&& (0xFFFFFFFF ^^^ m)

def IGNBRK : Nat := 0o1
def IXON : Nat := 0o2000
def IXANY : Nat := 0o4000
def IXOFF : Nat := 0o10000
def IBAUD0 : Nat := 0o20000000000

def CBAUD : Nat := 0o10017
def CBAUDEX : Nat := 0o10000
def CSIZE : Nat := 0o60
def CS5 : Nat := 0o0
def CS6 : Nat := 0o20
def CS7 : Nat := 0o40
def CS8 : Nat := 0o60
def CSTOPB : Nat := 0o100
def CREAD : Nat := 0o200
def PARENB : Nat := 0o400
def PARODD : Nat := 0o1000
def CLOCAL : Nat := 0o4000
def CMSPAR : Nat := 0o10000000000
def CRTSCTS : Nat := 0o20000000000

def B38400 : Nat := 0o17
def B57600 : Nat := 0o10001
def B115200 : Nat := 0o10002
def B230400 : Nat := 0o10003
def B460800 : Nat := 0o10004
def B500000 : Nat := 0o10005
def B576000 : Nat := 0o10006
def B921600 : Nat := 0o10007
def B1000000 : Nat := 0o10010
def B1152000 : Nat := 0o10011
def B1500000 : Nat := 0o10012
def B2000000 : Nat := 0o10013
def B2500000 : Nat := 0o10014
def B3000000 : Nat := 0o10015
def B3500000 : Nat := 0o10016
def B4000000 : Nat := 0o10017

def VTIME : Fin 32 := 5
def VMIN : Fin 32 := 6

def TCSANOW : Int := 0
def TCIOFLUSH : Int := 2
def O_RDWR : Nat := 0o2
def O_NOCTTY : Nat := 0o400
def EINTR : Int := 4

/-- The flags `O_RDWR | O_NOCTTY` that `serial_open` passes to `open`. -/
def open_flags : Int := ((O_RDWR ||| O_NOCTTY : Nat) : Int)

/-- The test with which the C library rejects a speed argument. -/
def bad_speed (speed : Nat) : Bool :=
  clear_bits speed CBAUD ≠ 0 && (speed < B57600 || speed > B4000000)

/-- The library function `cfsetispeed` (GNU C library, Linux). -/
def cfsetispeed (t : Termios) (speed : Nat) : Termios :=
  if bad_speed speed then t
  else
    let t1 := { t with c_ispeed := speed }
    if speed = 0 then { t1 with c_iflag := t1.c_iflag ||| IBAUD0 }
    else
      { t1 with
        c_iflag := clear_bits t1.c_iflag IBAUD0,
        c_cflag := clear_bits t1.c_cflag (CBAUD ||| CBAUDEX) ||| speed }

/-- The library function `cfsetospeed` (GNU C library, Linux). -/
def cfsetospeed (t : Termios) (speed : Nat) : Termios :=
  if bad_speed speed then t
  else
    { t with
      c_ospeed := speed,
      c_cflag := clear_bits t.c_cflag (CBAUD ||| CBAUDEX) ||| speed }

/-! ## The operating system and the trace -/

/-- A byte of the relayed stream.  The program only copies bytes. -/
abbrev Byte := Nat

/-- The lines the program prints, without their formatting. -/
inductive Msg where
  | usage (program : Option (List Char)) : Msg
  | open_error (devname : CharPtr) : Msg
  | cannot_open (name : CharPtr) : Msg
  | read_eof (devname : List Char) : Msg
  | read_interrupt (devname : List Char) : Msg
  | read_error (devname : List Char) : Msg
  | select_error : Msg
  deriving DecidableEq, Repr

/-- A library call made by the program, with its arguments and, where the
program looks at it, its result. -/
inductive Event where
  | sys_open (devname : CharPtr) (flags : Int) (ret : Int) : Event
  | malloc (addr : Nat) : Event
  | tcgetattr (fd : Int) : Event
  | tcflush (fd : Int) (queue : Int) : Event
  | tcsetattr (fd : Int) (actions : Int) (t : Termios) : Event
  | sys_close (fd : Int) : Event
  | free (addr : Nat) : Event
  | select (nfds : Int) (readfds : List Int) (ret : Int) : Event
  | read (fd : Int) (len : Nat) (ret : Int) (data : List Byte) : Event
  | write (fd : Int) (data : List Byte) : Event
  | printf (m : Msg) : Event
  deriving DecidableEq

/-- The operating system as the program sees it: each call maps the world
before to the world after and to what the call hands back.

* `errno w` is the value of `errno` in world `w`.
* `sys_open w path flags` returns the descriptor, negative on failure.
* `tcgetattr w fd` returns what the `struct termios` passed to it holds
  after the call.
* `select w nfds readfds` returns the result and the descriptor set after
  the call.
* `read w fd len` returns the result and the bytes stored at the start of
  the buffer.
* `write w fd data` returns the result. -/
structure OS (σ : Type) where
  errno : σ → Int
  sys_open : σ → CharPtr → Int → σ × Int
  tcgetattr : σ → Int → σ × Termios
  tcflush : σ → Int → Int → σ
  tcsetattr : σ → Int → Int → Termios → σ
  sys_close : σ → Int → σ
  select : σ → Int → List Int → σ × Int × List Int
  read : σ → Int → Nat → σ × Int × List Byte
  write : σ → Int → List Byte → σ × Int

/-- State of a run: the world, the number of blocks `malloc` has handed
out, and the trace of the calls made so far. -/
structure Sys (σ : Type) where
  world : σ
  nalloc : Nat
  trace : List Event

/-- Appends one call to the trace. -/
def Sys.emit {σ : Type} (st : Sys σ) (e : Event) : Sys σ :=
  { st with trace := st.trace ++ [e] }

/-- Replaces the world. -/
def Sys.setWorld {σ : Type} (st : Sys σ) (w : σ) : Sys σ :=
  { st with world := w }

/-! ## The device handle: `serial_open`, `serial_close`, `serial_setparams` -/

/-- The structure `struct serial_data`, together with the address of the
block that holds it (the value of the pointer `_sd`). -/
structure serial_data where
  addr : Nat
  fd : Int
  devname : List Char
  tty : Termios
  old_tty : Termios
  deriving DecidableEq

/-- What `snprintf(_sd->devname, 64, "%s", devname)` stores: at most 63
characters of the name. -/
def snprintf_devname : CharPtr → List Char
  | CharPtr.str cs => cs.take 63
  | _ => []

/-- The function `serial_open(devname)`.  The result is `none` for the null
pointer. -/
def serial_open {σ : Type} (os : OS σ) (devname : CharPtr) (st : Sys σ) :
    Option serial_data × Sys σ :=
  let r := os.sys_open st.world devname open_flags
  let fd := r.2
  let st1 := (st.setWorld r.1).emit (Event.sys_open devname open_flags fd)
  if fd < 0 then
    (none, st1.emit (Event.printf (Msg.open_error devname)))
  else
    let addr := st1.nalloc
    let st2 := { st1 with nalloc := st1.nalloc + 1 }.emit (Event.malloc addr)
    let g := os.tcgetattr st2.world fd
    let st3 := (st2.setWorld g.1).emit (Event.tcgetattr fd)
    (some { addr := addr, fd := fd, devname := snprintf_devname devname,
            tty := Termios.zero, old_tty := g.2 }, st3)

/-- The function `serial_close(_sd)`. -/
def serial_close {σ : Type} (os : OS σ) (_sd : Option serial_data) (st : Sys σ) :
    Sys σ :=
  match _sd with
  | none => st
  | some sd =>
    let st1 := (st.setWorld (os.tcsetattr st.world sd.fd TCSANOW sd.old_tty)).emit
      (Event.tcsetattr sd.fd TCSANOW sd.old_tty)
    let st2 := (st1.setWorld (os.sys_close st1.world sd.fd)).emit (Event.sys_close sd.fd)
    st2.emit (Event.free sd.addr)

/-- The first `switch` of `serial_setparams`: the value of `spd`. -/
def baud_to_spd (baudrate : Int) : Int :=
  if baudrate = 38400 then B38400
  else if baudrate = 57600 then B57600
  else if baudrate = 115200 then B115200
  else if baudrate = 230400 then B230400
  else if baudrate = 460800 then B460800
  else if baudrate = 500000 then B500000
  else if baudrate = 576000 then B576000
  else if baudrate = 921600 then B921600
  else if baudrate = 1000000 then B1000000
  else if baudrate = 1152000 then B1152000
  else if baudrate = 1500000 then B1500000
  else if baudrate = 2000000 then B2000000
  else if baudrate = 2500000 then B2500000
  else if baudrate = 3000000 then B3000000
  else if baudrate = 3500000 then B3500000
  else if baudrate = 4000000 then B4000000
  else -1

/-- Lines 66 to 91 of `serial_setparams`: the speed. -/
def set_speed (t : Termios) (baudrate : Int) : Termios :=
  let spd := baud_to_spd baudrate
  if spd ≠ -1 then cfsetospeed (cfsetispeed t spd.toNat) spd.toNat else t

/-- Lines 93 to 106 of `serial_setparams`: the data bits. -/
def set_databits (t : Termios) (databits : Int) : Termios :=
  if databits = 5 then { t with c_cflag := clear_bits t.c_cflag CSIZE ||| CS5 }
  else if databits = 6 then { t with c_cflag := clear_bits t.c_cflag CSIZE ||| CS6 }
  else if databits = 7 then { t with c_cflag := clear_bits t.c_cflag CSIZE ||| CS7 }
  else if databits = 8 then { t with c_cflag := clear_bits t.c_cflag CSIZE ||| CS8 }
  else t

/-- Lines 108 to 120 of `serial_setparams`: raw mode, the read policy, and
the `else` branch of `if (0)`. -/
def set_raw (t : Termios) : Termios :=
  let t1 := { t with c_iflag := IGNBRK }
  let t2 := { t1 with c_lflag := 0 }
  let t3 := { t2 with c_oflag := 0 }
  let t4 := { t3 with c_cflag := t3.c_cflag ||| (CLOCAL ||| CREAD) }
  let t5 := { t4 with c_cc := Function.update t4.c_cc VMIN 1 }
  let t6 := { t5 with c_cc := Function.update t5.c_cc VTIME 5 }
  { t6 with c_iflag := clear_bits t6.c_iflag (IXON ||| IXOFF ||| IXANY) }

/-- Lines 122 to 145 of `serial_setparams`: the parity. -/
def set_parity (t : Termios) (parity : Char) : Termios :=
  let t1 := { t with c_cflag := clear_bits t.c_cflag (PARENB ||| PARODD) }
  let t2 := { t1 with c_cflag := clear_bits t1.c_cflag CMSPAR }
  if parity = 'e' ∨ parity = 'E' then
    { t2 with c_cflag := t2.c_cflag ||| PARENB }
  else if parity = 'o' ∨ parity = 'O' then
    { t2 with c_cflag := t2.c_cflag ||| (PARENB ||| PARODD) }
  else if parity = 's' ∨ parity = 'S' then
    { t2 with c_cflag := t2.c_cflag ||| (PARENB ||| CMSPAR) }
  else if parity = 'm' ∨ parity = 'M' then
    { t2 with c_cflag := t2.c_cflag ||| (PARENB ||| PARODD ||| CMSPAR) }
  else t2

/-- Lines 147 to 155 of `serial_setparams`: the stop bits. -/
def set_stopbits (t : Termios) (stopbits : Int) : Termios :=
  if stopbits = 2 then { t with c_cflag := t.c_cflag ||| CSTOPB }
  else { t with c_cflag := clear_bits t.c_cflag CSTOPB }

/-- Lines 157 to 161 of `serial_setparams`: hardware flow control. -/
def set_hwflow (t : Termios) (hwflow : Int) : Termios :=
  if hwflow ≠ 0 then { t with c_cflag := t.c_cflag ||| CRTSCTS }
  else { t with c_cflag := clear_bits t.c_cflag CRTSCTS }

/-- What `serial_setparams` does to the working configuration `*ptty`. -/
def setparams_tty (t : Termios) (baudrate : Int) (parity : Char)
    (databits stopbits hwflow : Int) : Termios :=
  set_hwflow (set_stopbits (set_parity (set_raw (set_databits (set_speed t baudrate)
    databits)) parity) stopbits) hwflow

/-- The function `serial_setparams`: the handle after the call and the run
state after `tcflush` and `tcsetattr`. -/
def serial_setparams {σ : Type} (os : OS σ) (_sd : serial_data) (baudrate : Int)
    (parity : Char) (databits stopbits hwflow : Int) (st : Sys σ) :
    serial_data × Sys σ :=
  let fd := _sd.fd
  let tty := setparams_tty _sd.tty baudrate parity databits stopbits hwflow
  let st1 := (st.setWorld (os.tcflush st.world fd TCIOFLUSH)).emit
    (Event.tcflush fd TCIOFLUSH)
  let st2 := (st1.setWorld (os.tcsetattr st1.world fd TCSANOW tty)).emit
    (Event.tcsetattr fd TCSANOW tty)
  ({ _sd with tty := tty }, st2)

/-! ## The forwarder: `serial_read`, `serial_write`, `start_forward` -/

/-- The locals of `start_forward` that live across statements, with the run
state: the buffer `buf` and the flag `quit`. -/
structure Fwd (σ : Type) where
  sys : Sys σ
  buf : List Byte
  quit : Int

/-- The buffer after `data` was stored at its start. -/
def store (buf data : List Byte) : List Byte :=
  data ++ buf.drop data.length

/-- The descriptor set after `FD_ZERO`. -/
def FD_ZERO : List Int := []

/-- The descriptor set after `FD_SET(fd, &fds)`. -/
def FD_SET (fd : Int) (fds : List Int) : List Int := fd :: fds

/-- The test `FD_ISSET(fd, &fds)`. -/
def FD_ISSET (fd : Int) (fds : List Int) : Bool := decide (fd ∈ fds)

/-- The function `serial_read(_sd, buf, len)`: the value returned and the
state after the call.  `read` stores at most `len` bytes. -/
def serial_read {σ : Type} (os : OS σ) (_sd : serial_data) (len : Nat) (st : Fwd σ) :
    Int × Fwd σ :=
  let r := os.read st.sys.world _sd.fd len
  let ret := r.2.1
  let data := r.2.2.take len
  let sys1 := (st.sys.setWorld r.1).emit (Event.read _sd.fd len ret data)
  let sys2 :=
    if ret ≤ 0 then
      if ret = 0 then sys1.emit (Event.printf (Msg.read_eof _sd.devname))
      else if ret < 0 ∧ os.errno sys1.world = EINTR then
        sys1.emit (Event.printf (Msg.read_interrupt _sd.devname))
      else sys1.emit (Event.printf (Msg.read_error _sd.devname))
    else sys1
  (ret, { st with sys := sys2, buf := store st.buf data })

/-- The function `serial_write(_sd, buf, len)`: the value returned and the
state after the call.  The bytes handed to `write` are the first `len` bytes
of the buffer. -/
def serial_write {σ : Type} (os : OS σ) (_sd : serial_data) (len : Int) (st : Fwd σ) :
    Int × Fwd σ :=
  let data := st.buf.take len.toNat
  let r := os.write st.sys.world _sd.fd data
  (r.2, { st with sys := (st.sys.setWorld r.1).emit (Event.write _sd.fd data) })

/-- One of the two `if (FD_ISSET(...))` blocks of the loop body (lines 227 to
233 with `src = s1`, `dst = s2`; lines 235 to 241 with `src = s2`,
`dst = s1`). -/
def forward_from {σ : Type} (os : OS σ) (src dst : serial_data) (fds : List Int)
    (st : Fwd σ) : Fwd σ :=
  if FD_ISSET src.fd fds then
    let r := serial_read os src 1024 st
    if r.1 > 0 then (serial_write os dst r.1 r.2).2
    else { r.2 with quit := 1 }
  else st

/-- The state after the call of `select` in the loop body (lines 216 to
220), with the result and the descriptor set the call left. -/
def forward_select {σ : Type} (os : OS σ) (s1 s2 : serial_data) (st : Fwd σ) :
    Fwd σ × Int × List Int :=
  let maxfd := if s1.fd > s2.fd then s1.fd else s2.fd
  let fds := FD_SET s2.fd (FD_SET s1.fd FD_ZERO)
  let r := os.select st.sys.world (maxfd + 1) fds
  ({ st with sys := (st.sys.setWorld r.1).emit (Event.select (maxfd + 1) fds r.2.1) },
    r.2.1, r.2.2)

/-- The test of line 221 on the result of `select`. -/
def select_fatal {σ : Type} (os : OS σ) (w : σ) (ret : Int) : Bool :=
  decide (ret < 0) && decide (os.errno w ≠ EINTR) && decide (os.errno w ≠ 0)

/-- The body of the `while` loop of `start_forward` (lines 216 to 241).
`quit = 1; break;` leaves the body with `quit = 1`, on which the loop test
ends the loop. -/
def forward_body {σ : Type} (os : OS σ) (s1 s2 : serial_data) (st : Fwd σ) : Fwd σ :=
  let r := forward_select os s1 s2 st
  let st1 := r.1
  if select_fatal os st1.sys.world r.2.1 then
    { st1 with sys := st1.sys.emit (Event.printf Msg.select_error), quit := 1 }
  else
    forward_from os s2 s1 r.2.2 (forward_from os s1 s2 r.2.2 st1)

/-- The state of an iteration right after its call of `select`. -/
def after_select {σ : Type} (os : OS σ) (s1 s2 : serial_data) (st : Fwd σ) : Fwd σ :=
  (forward_select os s1 s2 st).1

/-- The value `select` returned in an iteration. -/
def select_ret {σ : Type} (os : OS σ) (s1 s2 : serial_data) (st : Fwd σ) : Int :=
  (forward_select os s1 s2 st).2.1

/-- The descriptor set `fds` as the call of `select` left it. -/
def ready_set {σ : Type} (os : OS σ) (s1 s2 : serial_data) (st : Fwd σ) : List Int :=
  (forward_select os s1 s2 st).2.2

/-- The state of an iteration after the block for the first handle. -/
def after_first {σ : Type} (os : OS σ) (s1 s2 : serial_data) (st : Fwd σ) : Fwd σ :=
  forward_from os s1 s2 (ready_set os s1 s2 st) (after_select os s1 s2 st)

/-- The loop `while (!quit) { ... }`, run for at most `fuel` iterations:
`none` when the loop has not ended by then. -/
def forward_loop {σ : Type} (os : OS σ) (s1 s2 : serial_data) :
    Nat → Fwd σ → Option (Fwd σ)
  | 0, st => if st.quit ≠ 0 then some st else none
  | fuel + 1, st =>
    if st.quit ≠ 0 then some st
    else forward_loop os s1 s2 fuel (forward_body os s1 s2 st)

/-- The function `start_forward(s1, s2)`.  `buf0` is what the uninitialised
array `buf` holds on entry. -/
def start_forward {σ : Type} (os : OS σ) (s1 s2 : serial_data) (buf0 : List Byte)
    (fuel : Nat) (st : Sys σ) : Option (Sys σ) :=
  (forward_loop os s1 s2 fuel { sys := st, buf := buf0, quit := 0 }).map (·.sys)

/-! ## `main` -/

/-- The function `show_usage(program)`. -/
def show_usage {σ : Type} (program : Option (List Char)) (st : Sys σ) : Sys σ :=
  st.emit (Event.printf (Msg.usage program))

/-- The function `main(argc, argv)` with `argc = argv.length`: the value
returned and the run state on return, or `none` when the forwarding loop has
not ended within `fuel` iterations.

The locals `s1name` and `s2name` are not initialised before their address is
passed to `parse_serial_name`; `s1baud` and `s2baud` are not initialised
either, and `parse_serial_name` ignores what they hold.  `buf0` is the
content of the stack where `start_forward` places its buffer.  The storage
of the name strings (`strdup`, `free(s1name)`, `free(s2name)`) is not
traced. -/
def main {σ : Type} (os : OS σ) (argv : List (List Char)) (buf0 : List Byte)
    (fuel : Nat) (st : Sys σ) : Option (Int × Sys σ) :=
  if argv.length ≠ 3 then
    some (-1, show_usage argv.head? st)
  else
    match parse_serial_name (argv.getD 1 []) (some CharPtr.uninit) (some 0) 115200,
          parse_serial_name (argv.getD 2 []) (some CharPtr.uninit) (some 0) 115200 with
    | some p1, some p2 =>
      let s1name := p1.name
      let s1baud := p1.baud.getD 0
      let s2name := p2.name
      let s2baud := p2.baud.getD 0
      let o1 := serial_open os s1name st
      match o1.1 with
      | none => some (-1, o1.2.emit (Event.printf (Msg.cannot_open s1name)))
      | some s1 =>
        let o2 := serial_open os s2name o1.2
        match o2.1 with
        | none =>
          some (-1, serial_close os (some s1)
            (o2.2.emit (Event.printf (Msg.cannot_open s2name))))
        | some s2 =>
          let c1 := serial_setparams os s1 s1baud 'n' 8 1 0 o2.2
          let c2 := serial_setparams os s2 s2baud 'n' 8 1 0 c1.2
          match start_forward os c1.1 c2.1 buf0 fuel c2.2 with
          | none => none
          | some st1 =>
            some (0, serial_close os (some c1.1) (serial_close os (some c2.1) st1))
    | _, _ => none

/-! ## Definitions used to state the properties -/

/-- The number that a string of decimal digits writes, most significant
digit first. -/
def numeral_value (r : List Char) : Nat :=
  Nat.ofDigits 10 (r.reverse.map (fun c => c.toNat - 48))

/-- The part of a device specification before its first comma. -/
def before_comma (s : List Char) : List Char :=
  s.takeWhile (fun x => x != ',')

/-- A world that answers from a script: the descriptors `open` will return,
the configuration `tcgetattr` reports, the results of the coming `select`
and `read` calls (result, `errno` after the call, and the descriptor set
after the call, `none` for unchanged, or the bytes delivered), and a record
of what was written and of the configurations applied. -/
structure Script where
  errno : Int
  opens : List Int
  saved : Termios
  selects : List (Int × Int × Option (List Int))
  reads : List (Int × Int × List Byte)
  written : List (Int × List Byte)
  applied : List (Int × Termios)

/-- The operating system of the scripted world.  Past the end of the script
a `select` returns 2 and leaves the descriptor set as it was, a `read`
returns 0 (end of stream), and an `open` fails.  A `write` accepts all the
bytes. -/
def script_os : OS Script where
  errno := fun w => w.errno
  sys_open := fun w _ _ =>
    match w.opens with
    | [] => ({ w with errno := 2 }, -1)
    | fd :: rest => ({ w with opens := rest }, fd)
  tcgetattr := fun w _ => (w, w.saved)
  tcflush := fun w _ _ => w
  tcsetattr := fun w fd _ t => { w with applied := w.applied ++ [(fd, t)] }
  sys_close := fun w _ => w
  select := fun w _ fds =>
    match w.selects with
    | [] => (w, 2, fds)
    | (ret, e, after) :: rest => ({ w with selects := rest, errno := e }, ret, after.getD fds)
  read := fun w _ _ =>
    match w.reads with
    | [] => (w, 0, [])
    | (ret, e, data) :: rest => ({ w with reads := rest, errno := e }, ret, data)
  write := fun w fd data =>
    ({ w with written := w.written ++ [(fd, data)] }, (data.length : Int))

/-- A scripted world in which nothing has happened yet. -/
def Script.init : Script :=
  { errno := 0, opens := [], saved := Termios.zero, selects := [], reads := [],
    written := [], applied := [] }

/-- The run state at program start in world `w`. -/
def Sys.start {σ : Type} (w : σ) : Sys σ :=
  { world := w, nalloc := 0, trace := [] }

/-- A handle on descriptor 3, as `serial_open` returns it. -/
def dev_a : serial_data :=
  { addr := 0, fd := 3, devname := ['/', 'd', 'e', 'v', '/', 'a'],
    tty := Termios.zero, old_tty := Termios.zero }

/-- A handle on descriptor 4, as `serial_open` returns it. -/
def dev_b : serial_data :=
  { addr := 1, fd := 4, devname := ['/', 'd', 'e', 'v', '/', 'b'],
    tty := Termios.zero, old_tty := Termios.zero }

/-- The state on entry to the loop of `start_forward` in world `w`, with an
empty trace and a zeroed buffer. -/
def Fwd.enter {σ : Type} (w : σ) : Fwd σ :=
  { sys := Sys.start w, buf := List.replicate 1024 0, quit := 0 }

/-- Scripted world: `select` reports descriptor 3 readable, and the read
delivers three bytes. -/
def world_a_has_data : Script :=
  { Script.init with
    selects := [(1, 0, some [3])], reads := [(3, 0, [104, 105, 10])] }

/-- Scripted world: `select` reports descriptor 4 readable, and the read
delivers two bytes. -/
def world_b_has_data : Script :=
  { Script.init with
    selects := [(1, 0, some [4])], reads := [(2, 0, [111, 107])] }

/-- Scripted world: `select` reports descriptor 3 readable, and the read
returns 0 (end of stream). -/
def world_a_eof : Script :=
  { Script.init with selects := [(1, 0, some [3])], reads := [(0, 0, [])] }

/-- The contract of `select` on failure, for the call that an iteration
makes: when the call returns a negative value it has set `errno` to the
number of the error, and no error has the number 0. -/
def select_sets_errno {σ : Type} (os : OS σ) (s1 s2 : serial_data) (st : Fwd σ) : Prop :=
  select_ret os s1 s2 st < 0 → os.errno (after_select os s1 s2 st).sys.world ≠ 0

/-- Scripted world: `select` fails with `errno = 9` (`EBADF`). -/
def world_select_fails : Script :=
  { Script.init with selects := [(-1, 9, none)] }

/-- Scripted world: a signal interrupts `select`, which returns -1 with
`errno = EINTR` and the descriptor set as it was; a second signal interrupts
the read on the first handle, and the second handle is at end of stream. -/
def world_select_eintr : Script :=
  { Script.init with
    selects := [(-1, 4, none)], reads := [(-1, 4, []), (0, 4, [])] }

/-- The arguments of one call of `serial_setparams`. -/
structure Params where
  baudrate : Int
  parity : Char
  databits : Int
  stopbits : Int
  hwflow : Int

/-- A sequence of calls of `serial_setparams` on one handle, in order. -/
def setparams_all {σ : Type} (os : OS σ) :
    List Params → serial_data × Sys σ → serial_data × Sys σ
  | [], x => x
  | p :: ps, x =>
    setparams_all os ps
      (serial_setparams os x.1 p.baudrate p.parity p.databits p.stopbits p.hwflow x.2)

/-- A configuration a device may be in before the program runs: 38400 baud,
8 data bits, receiver on, canonical mode with echo. -/
def cooked_tty : Termios :=
  { Termios.zero with
    c_iflag := 0o2400, c_oflag := 0o5, c_cflag := 0o2277, c_lflag := 0o105073,
    c_ispeed := 0o17, c_ospeed := 0o17 }

/-- Scripted world: `open` returns descriptor 3 and the device is in the
configuration `cooked_tty`. -/
def world_one_device : Script :=
  { Script.init with opens := [3], saved := cooked_tty }

/-- The addresses of the handles allocated in a trace, in order. -/
def allocated (tr : List Event) : List Nat :=
  tr.filterMap (fun e => match e with
    | Event.malloc a => some a
    | _ => none)

/-- The addresses of the handles that `serial_close` released in a trace,
in order. -/
def freed (tr : List Event) : List Nat :=
  tr.filterMap (fun e => match e with
    | Event.free a => some a
    | _ => none)

/-- What `main` gets from `parse_serial_name` for one argument. -/
def main_parse (arg : List Char) : ParseOut :=
  (parse_serial_name arg (some CharPtr.uninit) (some 0) 115200).getD
    { name := CharPtr.uninit, baud := none }

/-- The first call of `serial_open` in `main`. -/
def main_open1 {σ : Type} (os : OS σ) (argv : List (List Char)) (st : Sys σ) :
    Option serial_data × Sys σ :=
  serial_open os (main_parse (argv.getD 1 [])).name st

/-- The second call of `serial_open` in `main`, made when the first one
succeeded. -/
def main_open2 {σ : Type} (os : OS σ) (argv : List (List Char)) (st : Sys σ) :
    Option serial_data × Sys σ :=
  serial_open os (main_parse (argv.getD 2 [])).name (main_open1 os argv st).2

/-- The two handles and the run state after the two calls of
`serial_setparams` in `main`, for the handles `s1` and `s2` that the two
calls of `serial_open` returned. -/
def main_setup {σ : Type} (os : OS σ) (argv : List (List Char)) (st : Sys σ)
    (s1 s2 : serial_data) : (serial_data × serial_data) × Sys σ :=
  let c1 := serial_setparams os s1 ((main_parse (argv.getD 1 [])).baud.getD 0) 'n' 8 1 0
    (main_open2 os argv st).2
  let c2 := serial_setparams os s2 ((main_parse (argv.getD 2 [])).baud.getD 0) 'n' 8 1 0 c1.2
  ((c1.1, c2.1), c2.2)

/-- The result of `main` once both devices are open: the forwarding loop
runs on the configured handles, then the second and the first handle are
closed and 0 is returned. -/
def main_forward {σ : Type} (os : OS σ) (argv : List (List Char)) (buf0 : List Byte)
    (fuel : Nat) (st : Sys σ) (s1 s2 : serial_data) : Option (Int × Sys σ) :=
  (start_forward os (main_setup os argv st s1 s2).1.1 (main_setup os argv st s1 s2).1.2
      buf0 fuel (main_setup os argv st s1 s2).2).map
    (fun st1 => (0, serial_close os (some (main_setup os argv st s1 s2).1.1)
      (serial_close os (some (main_setup os argv st s1 s2).1.2) st1)))

/-- The part of the run state that concerns handles: the allocation count
and the handles allocated and freed so far. -/
def heap_view {σ : Type} (st : Sys σ) : Nat × List Nat × List Nat :=
  (st.nalloc, allocated st.trace, freed st.trace)

/-- Scripted world with one device: the first `open` returns descriptor 3
and the second `open` fails. -/
def world_second_open_fails : Script :=
  { Script.init with opens := [3], saved := cooked_tty }

/-- Scripted world with two devices: descriptor 3 delivers three bytes in
the first iteration and is at end of stream in the second. -/
def world_two_devices : Script :=
  { Script.init with
    opens := [3, 4], saved := cooked_tty,
    selects := [(1, 0, some [3]), (1, 0, some [3])],
    reads := [(3, 0, [104, 105, 10]), (0, 0, [])] }

/-- A command line with two device specifications. -/
def argv_two : List (List Char) :=
  [['t', 't', 'y'], ['/', 'd', 'e', 'v', '/', 'a'],
   ['/', 'd', 'e', 'v', '/', 'b', ',', '5', '7', '6', '0', '0']]

/-! ## Definitions for the configuration properties -/

/-- A function on flag words that acts on each bit on its own: it keeps the
bit or gives it a fixed value. -/
def BitLocal (f : Nat → Nat) : Prop :=
  ∀ i, (∀ x, (f x).testBit i = x.testBit i) ∨ (∃ b, ∀ x, (f x).testBit i = b)

/-- A step on configurations whose effect on `c_cflag` is bit-local and
depends on the prior `c_cflag` only. -/
def CflagLocal (g : Termios → Termios) : Prop :=
  ∃ f, BitLocal f ∧ ∀ t, (g t).c_cflag = f t.c_cflag

/-- The lookup table of `serial_setparams`: each supported baud value with
its speed constant. -/
def baud_table : List (Int × Nat) :=
  [(38400, B38400), (57600, B57600), (115200, B115200), (230400, B230400),
   (460800, B460800), (500000, B500000), (576000, B576000), (921600, B921600),
   (1000000, B1000000), (1152000, B1152000), (1500000, B1500000), (2000000, B2000000),
   (2500000, B2500000), (3000000, B3000000), (3500000, B3500000), (4000000, B4000000)]

/-- The configuration after a successful `cfsetispeed` and `cfsetospeed`
with the non-zero speed constant `s`. -/
def with_speed (t : Termios) (s : Nat) : Termios :=
  { t with
    c_iflag := clear_bits t.c_iflag IBAUD0,
    c_cflag := clear_bits (clear_bits t.c_cflag (CBAUD ||| CBAUDEX) ||| s)
      (CBAUD ||| CBAUDEX) ||| s,
    c_ispeed := s, c_ospeed := s }

/-- The library function `cfgetospeed` (GNU C library, Linux). -/
def cfgetospeed (t : Termios) : Nat :=
  t.c_cflag &&& (CBAUD ||| CBAUDEX)

/-- The library function `cfgetispeed` (GNU C library, Linux). -/
def cfgetispeed (t : Termios) : Nat :=
  if t.c_iflag &&& IBAUD0 ≠ 0 then 0 else t.c_cflag &&& (CBAUD ||| CBAUDEX)

/-- The three parity bits of `c_cflag`. -/
def PARITY_BITS : Nat := PARENB ||| PARODD ||| CMSPAR

/-- A handle on descriptor 3 whose working configuration is `cooked_tty`. -/
def dev_cooked : serial_data :=
  { dev_a with tty := cooked_tty }

/-! ## Definitions for the configuration `main` applies -/

def B0 : Nat := 0o0
def B9600 : Nat := 0o15
def B19200 : Nat := 0o16

/-- The fixed configuration of the program: no parity, 8 data bits, 1 stop
bit, no hardware flow control, raw mode, and nothing else in `c_cflag`
apart from the speed bits. -/
def FixedConfig (t : Termios) : Prop :=
  t.c_cflag &&& PARITY_BITS = 0
  ∧ t.c_cflag &&& CSIZE = CS8
  ∧ t.c_cflag &&& CSTOPB = 0
  ∧ t.c_cflag &&& CRTSCTS = 0
  ∧ t.c_lflag = 0 ∧ t.c_oflag = 0 ∧ t.c_iflag = IGNBRK
  ∧ clear_bits t.c_cflag (CBAUD ||| CBAUDEX) = CS8 ||| CLOCAL ||| CREAD

instance (t : Termios) : Decidable (FixedConfig t) := by
  unfold FixedConfig
  infer_instance

/-- A command line whose second device specification asks for 9600 baud. -/
def argv_9600 : List (List Char) :=
  [['t', 't', 'y'], ['/', 'd', 'e', 'v', '/', 'a'],
   ['/', 'd', 'e', 'v', '/', 'b', ',', '9', '6', '0', '0']]

/-! ## Definitions for the remaining properties of the loop and the parser -/

/-- Scripted world: `select` reports both descriptors readable; the read on
descriptor 3 returns 0 and the read on descriptor 4 delivers two bytes. -/
def world_first_eof_second_data : Script :=
  { Script.init with
    selects := [(2, 0, none)], reads := [(0, 0, []), (2, 0, [111, 107])] }

/-- What is left of a string after its leading white space and one optional
sign. -/
def skip_space_sign (r : List Char) : List Char :=
  match r.dropWhile isspace with
  | [] => []
  | c :: cs => if c = '-' ∨ c = '+' then cs else c :: cs

/-- The leading decimal digits of a string, after optional white space and
sign. -/
def leading_digits (r : List Char) : List Char :=
  (skip_space_sign r).takeWhile isdigit

/-- Whether the sign read after the leading white space is a minus. -/
def has_minus (r : List Char) : Bool :=
  (r.dropWhile isspace).head? = some '-'

/-- The signed value that the leading decimal digits of a string write,
after optional white space and sign: negated after a minus sign. -/
def leading_value (r : List Char) : Int :=
  if has_minus r = true then -(numeral_value (leading_digits r) : Int)
  else (numeral_value (leading_digits r) : Int)

/-- The specification `/dev/x,4294967296`. -/
def spec_too_large : List Char :=
  ['/', 'd', 'e', 'v', '/', 'x', ',', '4', '2', '9', '4', '9', '6', '7', '2', '9', '6']

/-! ## Lemmas on strings and `atoi` -/

theorem strchr_eq_none {s : List Char} {c : Char} (h : c ∉ s) : strchr s c = none := by
  induction s with
  | nil => rfl
  | cons x xs ih =>
    simp only [List.mem_cons, not_or] at h
    have hx : x ≠ c := fun e => h.1 e.symm
    simp [strchr, hx, ih h.2]

theorem strchr_append {p : List Char} {c : Char} (r : List Char) (h : c ∉ p) :
    strchr (p ++ c :: r) c = some p.length := by
  induction p with
  | nil => simp [strchr]
  | cons x xs ih =>
    simp only [List.mem_cons, not_or] at h
    have hx : x ≠ c := fun e => h.1 e.symm
    simp [strchr, hx, ih h.2]

theorem strchr_some_split {s : List Char} {c : Char} {i : Nat} (h : strchr s c = some i) :
    c ∉ s.take i ∧ s = s.take i ++ c :: s.drop (i + 1) := by
  induction s generalizing i with
  | nil => simp [strchr] at h
  | cons x xs ih =>
    by_cases hx : x = c
    · simp [strchr, hx] at h
      subst h
      simp [hx]
    · simp only [strchr, hx, if_false, Option.map_eq_some'] at h
      obtain ⟨j, hj, rfl⟩ := h
      have := ih hj
      refine ⟨?_, ?_⟩
      · simp only [List.take_succ_cons, List.mem_cons, not_or]
        exact ⟨fun e => hx e.symm, this.1⟩
      · simp only [List.take_succ_cons, List.drop_succ_cons, List.cons_append]
        rw [← this.2]

theorem before_comma_append {p : List Char} (r : List Char) (h : ',' ∉ p) :
    before_comma (p ++ ',' :: r) = p := by
  unfold before_comma
  induction p with
  | nil => simp
  | cons x xs ih =>
    simp only [List.mem_cons, not_or] at h
    have hx : x ≠ ',' := fun e => h.1 e.symm
    simp [List.takeWhile_cons, hx, ih h.2]

theorem before_comma_all {p : List Char} (h : ',' ∉ p) : before_comma p = p := by
  unfold before_comma
  induction p with
  | nil => simp
  | cons x xs ih =>
    simp only [List.mem_cons, not_or] at h
    have hx : x ≠ ',' := fun e => h.1 e.symm
    simp [List.takeWhile_cons, hx, ih h.2]

theorem digits_value_numeral (r : List Char) (acc : Nat)
    (h : ∀ c ∈ r, isdigit c = true) :
    digits_value r acc = acc * 10 ^ r.length + numeral_value r := by
  induction r generalizing acc with
  | nil => simp [digits_value, numeral_value]
  | cons c cs ih =>
    have hc : isdigit c = true := h c (List.mem_cons_self _ _)
    have hcs : ∀ x ∈ cs, isdigit x = true := fun x hx => h x (List.mem_cons_of_mem _ hx)
    simp only [digits_value, hc, if_true]
    rw [ih _ hcs]
    simp only [numeral_value, List.reverse_cons, List.map_append, List.map_cons, List.map_nil,
      Nat.ofDigits_append, Nat.ofDigits_singleton, List.length_map, List.length_reverse,
      List.length_cons]
    ring

theorem to_int_of_small {x : Int} (h0 : 0 ≤ x) (h1 : x < 2 ^ 31) : to_int x = x := by
  unfold to_int
  rw [Int.emod_eq_of_lt (by omega) (by omega)]
  omega

theorem atoi_numeral (r : List Char) (hne : r ≠ []) (h : ∀ c ∈ r, isdigit c = true)
    (hv : numeral_value r < 2 ^ 31) : atoi r = (numeral_value r : Int) := by
  cases r with
  | nil => exact absurd rfl hne
  | cons c cs =>
    have hc : isdigit c = true := h c (List.mem_cons_self _ _)
    have hc2 : 48 ≤ c.toNat ∧ c.toNat ≤ 57 := by simpa [isdigit] using hc
    have hsp : isspace c = false := by
      simp only [isspace, Bool.or_eq_false_iff, Bool.and_eq_false_iff, decide_eq_false_iff_not]
      omega
    have hm : c ≠ '-' := by
      intro e; rw [e] at hc2; revert hc2; decide
    have hp : c ≠ '+' := by
      intro e; rw [e] at hc2; revert hc2; decide
    have hd := digits_value_numeral (c :: cs) 0 h
    simp only [Nat.zero_mul, Nat.zero_add] at hd
    unfold atoi strtol10
    simp only [List.dropWhile_cons, hsp, Bool.false_eq_true, if_false, hm, hp, hd]
    have : ((numeral_value (c :: cs) : Nat) : Int) < 2 ^ 31 := by exact_mod_cast hv
    rw [min_eq_right (by unfold LONG_MAX; omega)]
    exact to_int_of_small (by positivity) this

theorem first_comma_split (s : List Char) :
    ',' ∉ s ∨ ∃ p r, ',' ∉ p ∧ s = p ++ ',' :: r := by
  cases hs : strchr s ',' with
  | none =>
    left
    induction s with
    | nil => simp
    | cons x xs ih =>
      by_cases hx : x = ','
      · simp [strchr, hx] at hs
      · simp only [strchr, hx, if_false, Option.map_eq_none'] at hs
        simp only [List.mem_cons, not_or]
        exact ⟨fun e => hx e.symm, ih hs⟩
  | some i =>
    right
    exact ⟨s.take i, s.drop (i + 1), strchr_some_split hs⟩

theorem parse_serial_name_no_comma (s : List Char) (n0 : CharPtr) (b : Option Int)
    (d : Int) (h : ',' ∉ s) :
    parse_serial_name s (some n0) b d
      = some { name := CharPtr.str s, baud := b.map (fun _ => d) } := by
  simp [parse_serial_name, strchr_eq_none h]

theorem parse_serial_name_comma (p r : List Char) (n0 : CharPtr) (b : Option Int)
    (d : Int) (h : ',' ∉ p) :
    parse_serial_name (p ++ ',' :: r) (some n0) b d
      = some { name := if p.length ≠ 0 then CharPtr.str p else n0,
               baud := b.map (fun _ => if r ≠ [] then atoi r else d) } := by
  have hd : List.drop (p.length + 1) (p ++ ',' :: r) = r := by
    rw [List.drop_append_eq_append_drop]; simp
  simp only [parse_serial_name, strchr_append r h, hd, List.take_left']
  split <;> rfl

theorem digits_value_takeWhile (cs : List Char) (acc : Nat) :
    digits_value cs acc = digits_value (cs.takeWhile isdigit) acc := by
  induction cs generalizing acc with
  | nil => rfl
  | cons c cs ih =>
    by_cases hc : isdigit c = true
    · simp only [digits_value, List.takeWhile_cons, hc, if_true]
      exact ih _
    · simp [digits_value, List.takeWhile_cons, hc]

theorem digits_value_leading (cs : List Char) :
    digits_value cs 0 = numeral_value (cs.takeWhile isdigit) := by
  rw [digits_value_takeWhile, digits_value_numeral _ _ (fun c hc => (List.mem_takeWhile_imp hc))]
  simp

theorem to_int_of_range {x : Int} (h0 : -(2 ^ 31) ≤ x) (h1 : x < 2 ^ 31) : to_int x = x := by
  unfold to_int
  rw [Int.emod_eq_of_lt (by omega) (by omega)]
  omega

theorem atoi_digits (r : List Char) (hne : r ≠ []) (h : ∀ c ∈ r, isdigit c = true) :
    atoi r = to_int (min LONG_MAX (numeral_value r : Int)) := by
  cases r with
  | nil => exact absurd rfl hne
  | cons c cs =>
    have hc : isdigit c = true := h c (List.mem_cons_self _ _)
    have hc2 : 48 ≤ c.toNat ∧ c.toNat ≤ 57 := by simpa [isdigit] using hc
    have hsp : isspace c = false := by
      simp only [isspace, Bool.or_eq_false_iff, Bool.and_eq_false_iff, decide_eq_false_iff_not]
      omega
    have hm : c ≠ '-' := by
      intro e; rw [e] at hc2; revert hc2; decide
    have hp : c ≠ '+' := by
      intro e; rw [e] at hc2; revert hc2; decide
    have hd := digits_value_numeral (c :: cs) 0 h
    simp only [Nat.zero_mul, Nat.zero_add] at hd
    unfold atoi strtol10
    simp only [List.dropWhile_cons, hsp, Bool.false_eq_true, if_false, hm, hp, hd]

theorem strtol10_leading (r : List Char) :
    strtol10 r = max LONG_MIN (min LONG_MAX (leading_value r)) := by
  have hmin : LONG_MIN = -(2 ^ 63) := rfl
  have hmax : LONG_MAX = 2 ^ 63 - 1 := rfl
  cases hd : r.dropWhile isspace with
  | nil =>
    have hl : leading_digits r = [] := by
      unfold leading_digits skip_space_sign; rw [hd]; rfl
    have hm : has_minus r = false := by
      unfold has_minus; rw [hd]; rfl
    have ha : strtol10 r = 0 := by
      unfold strtol10; rw [hd]
    have hv : leading_value r = 0 := by
      unfold leading_value; rw [hl, hm]; simp [numeral_value]
    rw [ha, hv, hmin, hmax]
    decide
  | cons c cs =>
    by_cases hm : c = '-'
    · have hl : leading_digits r = cs.takeWhile isdigit := by
        unfold leading_digits skip_space_sign; rw [hd]; simp [hm]
      have hmin1 : has_minus r = true := by
        unfold has_minus; rw [hd]; simp [hm]
      have ha : strtol10 r = max LONG_MIN (-(digits_value cs 0 : Int)) := by
        unfold strtol10; rw [hd]; simp [hm]
      have hv : leading_value r = -(numeral_value (cs.takeWhile isdigit) : Int) := by
        unfold leading_value; rw [hl, hmin1]; simp
      have hnn : (0 : Int) ≤ (numeral_value (cs.takeWhile isdigit) : Nat) := by positivity
      rw [ha, hv, digits_value_leading, min_eq_right (by omega)]
    · have hmin1 : has_minus r = false := by
        unfold has_minus; rw [hd]; simp [hm]
      by_cases hp : c = '+'
      · have hl : leading_digits r = cs.takeWhile isdigit := by
          unfold leading_digits skip_space_sign; rw [hd]; simp [hp]
        have ha : strtol10 r = min LONG_MAX (digits_value cs 0 : Int) := by
          unfold strtol10; rw [hd]; simp [hm, hp]
        have hv : leading_value r = (numeral_value (cs.takeWhile isdigit) : Int) := by
          unfold leading_value; rw [hl, hmin1]; simp
        have hnn : (0 : Int) ≤ (numeral_value (cs.takeWhile isdigit) : Nat) := by positivity
        rw [ha, hv, digits_value_leading, max_eq_right (by rw [le_min_iff]; omega)]
      · have hl : leading_digits r = (c :: cs).takeWhile isdigit := by
          unfold leading_digits skip_space_sign; rw [hd]; simp [hm, hp]
        have ha : strtol10 r = min LONG_MAX (digits_value (c :: cs) 0 : Int) := by
          unfold strtol10; rw [hd]; simp [hm, hp]
        have hv : leading_value r = (numeral_value ((c :: cs).takeWhile isdigit) : Int) := by
          unfold leading_value; rw [hl, hmin1]; simp
        have hnn : (0 : Int) ≤ (numeral_value ((c :: cs).takeWhile isdigit) : Nat) := by
          positivity
        rw [ha, hv, digits_value_leading, max_eq_right (by rw [le_min_iff]; omega)]

theorem atoi_leading_value (r : List Char) :
    atoi r = to_int (max LONG_MIN (min LONG_MAX (leading_value r))) := by
  unfold atoi
  rw [strtol10_leading]

theorem atoi_leading_in_range (r : List Char) (h0 : -(2 ^ 31) ≤ leading_value r)
    (h1 : leading_value r < 2 ^ 31) : atoi r = leading_value r := by
  have hmin : LONG_MIN = -(2 ^ 63) := rfl
  have hmax : LONG_MAX = 2 ^ 63 - 1 := rfl
  rw [atoi_leading_value, min_eq_right (by omega), max_eq_right (by omega)]
  exact to_int_of_range h0 h1

/-! ## Device specifications (C2, C3) -/

/-- C2, as the code has it: with a comma-free part `p` and default `d`,
`parse_serial_name` stores baud `d` for the specification `p` (no comma) and
for `p,` (nothing after the comma).  For `p,r` with `r` not empty it stores
the number written after the comma whenever that number fits an `int`: the
value of `r` when `r` is a string of decimal digits below `2^31`, and more
generally the signed value of the numeral at the start of `r` when it lies
between `-2^31` and `2^31 - 1`.  A string of digits of any size is stored as
its value saturated at `LONG_MAX` and reduced to 32 bits.  With default
115200, `/dev/x` gives path `/dev/x` and baud 115200, `/dev/x,9600` gives
path `/dev/x` and baud 9600, and `/dev/x,` gives path `/dev/x` and baud
115200. -/
theorem parse_serial_name_baud (p r : List Char) (n0 : CharPtr) (b0 d : Int)
    (hp : ',' ∉ p) :
    (parse_serial_name p (some n0) (some b0) d).map (·.baud) = some (some d)
    ∧ (parse_serial_name (p ++ [',']) (some n0) (some b0) d).map (·.baud) = some (some d)
    ∧ (r ≠ [] → (∀ c ∈ r, isdigit c = true) → numeral_value r < 2 ^ 31 →
        (parse_serial_name (p ++ ',' :: r) (some n0) (some b0) d).map (·.baud)
          = some (some (numeral_value r : Int)))
    ∧ (r ≠ [] → -(2 ^ 31) ≤ leading_value r → leading_value r < 2 ^ 31 →
        (parse_serial_name (p ++ ',' :: r) (some n0) (some b0) d).map (·.baud)
          = some (some (leading_value r)))
    ∧ (r ≠ [] → (∀ c ∈ r, isdigit c = true) →
        (parse_serial_name (p ++ ',' :: r) (some n0) (some b0) d).map (·.baud)
          = some (some (to_int (min LONG_MAX (numeral_value r : Int)))))
    ∧ parse_serial_name ['/', 'd', 'e', 'v', '/', 'x'] (some n0) (some b0) 115200
        = some { name := CharPtr.str ['/', 'd', 'e', 'v', '/', 'x'], baud := some 115200 }
    ∧ parse_serial_name ['/', 'd', 'e', 'v', '/', 'x', ',', '9', '6', '0', '0']
          (some n0) (some b0) 115200
        = some { name := CharPtr.str ['/', 'd', 'e', 'v', '/', 'x'], baud := some 9600 }
    ∧ parse_serial_name ['/', 'd', 'e', 'v', '/', 'x', ','] (some n0) (some b0) 115200
        = some { name := CharPtr.str ['/', 'd', 'e', 'v', '/', 'x'], baud := some 115200 } := by
  have hb : r ≠ [] →
      (parse_serial_name (p ++ ',' :: r) (some n0) (some b0) d).map (·.baud)
        = some (some (atoi r)) := by
    intro hr
    rw [parse_serial_name_comma p r n0 _ d hp]; simp [hr]
  refine ⟨?_, ?_, ?_, ?_, ?_, ?_, ?_, ?_⟩
  · rw [parse_serial_name_no_comma _ _ _ _ hp]; rfl
  · rw [parse_serial_name_comma p [] n0 _ d hp]; simp
  · intro hr hdig hv
    rw [hb hr, atoi_numeral r hr hdig hv]
  · intro hr h0 h1
    rw [hb hr, atoi_leading_in_range r h0 h1]
  · intro hr hdig
    rw [hb hr, atoi_digits r hr hdig]
  · rfl
  · rfl
  · rfl

/-- Witness for the amended C2 at the specification `/dev/x,9600` with
default 115200. -/
theorem parse_serial_name_baud_witness :
    ',' ∉ ['/', 'd', 'e', 'v', '/', 'x']
    ∧ (parse_serial_name ['/', 'd', 'e', 'v', '/', 'x', ',', '9', '6', '0', '0']
        (some CharPtr.uninit) (some 0) 115200).map (·.baud) = some (some 9600) := by
  refine ⟨by decide, ?_⟩
  have h := (parse_serial_name_baud ['/', 'd', 'e', 'v', '/', 'x'] ['9', '6', '0', '0']
    CharPtr.uninit 0 115200 (by decide)).2.2.1 (by decide) (by decide) (by decide)
  simpa [numeral_value] using h

/-- Counterexample to C2 as stated: in the specification `/dev/x,4294967296`
the number written after the comma is 4294967296, a string of ten decimal
digits, and the baud that `parse_serial_name` stores is 0. -/
theorem parse_serial_name_baud_overflow :
    spec_too_large = ['/', 'd', 'e', 'v', '/', 'x'] ++ ',' :: spec_too_large.drop 7
    ∧ (∀ c ∈ spec_too_large.drop 7, isdigit c = true)
    ∧ numeral_value (spec_too_large.drop 7) = 4294967296
    ∧ (parse_serial_name spec_too_large (some CharPtr.uninit) (some 0) 115200).map (·.baud)
        = some (some 0)
    ∧ (parse_serial_name spec_too_large (some CharPtr.uninit) (some 0) 115200).map (·.baud)
        ≠ some (some (numeral_value (spec_too_large.drop 7) : Int)) := by
  refine ⟨by decide, by decide, by decide, by decide, by decide⟩

/-- C3, as the code has it: for every specification `s` that does not start
with a comma, the path that `parse_serial_name` stores is the part of `s`
before its first comma, which is all of `s` when `s` has no comma. -/
theorem parse_serial_name_path (s : List Char) (n0 : CharPtr) (b : Option Int) (d : Int)
    (h : s.head? ≠ some ',') :
    (parse_serial_name s (some n0) b d).map (·.name) = some (CharPtr.str (before_comma s))
    ∧ (',' ∉ s → before_comma s = s) := by
  refine ⟨?_, fun hc => before_comma_all hc⟩
  rcases first_comma_split s with hc | ⟨p, r, hp, rfl⟩
  · rw [parse_serial_name_no_comma _ _ _ _ hc, before_comma_all hc]; rfl
  · have hlen : p.length ≠ 0 := by
      intro h0
      have : p = [] := List.length_eq_zero.mp h0
      subst this
      exact h rfl
    rw [parse_serial_name_comma p r n0 b d hp, before_comma_append r hp]
    simp [hlen]

/-- Witness for the amended C3 at the specification `/dev/x,9600`. -/
theorem parse_serial_name_path_witness :
    (['/', 'd', 'e', 'v', '/', 'x', ',', '9', '6', '0', '0'] : List Char).head? ≠ some ','
    ∧ (parse_serial_name ['/', 'd', 'e', 'v', '/', 'x', ',', '9', '6', '0', '0']
        (some CharPtr.uninit) (some 0) 115200).map (·.name)
        = some (CharPtr.str ['/', 'd', 'e', 'v', '/', 'x']) := by
  refine ⟨by decide, ?_⟩
  have h := (parse_serial_name_path ['/', 'd', 'e', 'v', '/', 'x', ',', '9', '6', '0', '0']
    CharPtr.uninit (some 0) 115200 (by decide)).1
  rw [h]
  decide

/-- Counterexample to C3 as stated: for the specification `,9600` the code
stores no path at all.  The variable `*name` keeps what it held before the
call (in `main`, nothing), where the specification has the empty string. -/
theorem parse_serial_name_leading_comma :
    (parse_serial_name [',', '9', '6', '0', '0'] (some CharPtr.uninit) (some 0) 115200).map
        (·.name) = some CharPtr.uninit
    ∧ (parse_serial_name [',', '9', '6', '0', '0'] (some CharPtr.uninit) (some 0) 115200).map
        (·.name) ≠ some (CharPtr.str (before_comma [',', '9', '6', '0', '0']))
    ∧ before_comma [',', '9', '6', '0', '0'] = [] := by
  refine ⟨by rfl, by decide, by rfl⟩

/-! ## Lemmas on the forwarder -/

theorem store_take (buf data : List Byte) : (store buf data).take data.length = data := by
  simp [store]

theorem forward_from_skip {σ : Type} (os : OS σ) (src dst : serial_data) (fds : List Int)
    (st : Fwd σ) (h : FD_ISSET src.fd fds = false) :
    forward_from os src dst fds st = st := by
  simp [forward_from, h]

theorem forward_from_data {σ : Type} (os : OS σ) (src dst : serial_data) (fds : List Int)
    (st : Fwd σ) (w : σ) (n : Nat) (data : List Byte)
    (h : FD_ISSET src.fd fds = true)
    (hr : os.read st.sys.world src.fd 1024 = (w, (n : Int), data))
    (hn : 1 ≤ n) (hn2 : n ≤ 1024) (hlen : data.length = n) :
    forward_from os src dst fds st
      = { sys := { world := (os.write w dst.fd data).1, nalloc := st.sys.nalloc,
                   trace := st.sys.trace ++
                     [Event.read src.fd 1024 n data, Event.write dst.fd data] },
          buf := store st.buf data, quit := st.quit } := by
  have hpos : (n : Int) > 0 := by omega
  have hnot : ¬ ((n : Int) ≤ 0) := by omega
  have htake : List.take 1024 data = data := List.take_of_length_le (by omega)
  have hst : List.take n (store st.buf data) = data := by
    rw [← hlen]; exact store_take _ _
  simp [forward_from, h, serial_read, serial_write, hr, hpos, hnot, htake, hst,
    Sys.emit, Sys.setWorld]

theorem serial_read_quit {σ : Type} (os : OS σ) (sd : serial_data) (len : Nat) (st : Fwd σ) :
    (serial_read os sd len st).2.quit = st.quit := rfl

theorem serial_write_quit {σ : Type} (os : OS σ) (sd : serial_data) (len : Int) (st : Fwd σ) :
    (serial_write os sd len st).2.quit = st.quit := rfl

theorem forward_from_end {σ : Type} (os : OS σ) (src dst : serial_data) (fds : List Int)
    (st : Fwd σ) (h : FD_ISSET src.fd fds = true)
    (hr : (os.read st.sys.world src.fd 1024).2.1 ≤ 0) :
    (forward_from os src dst fds st).quit = 1
    ∧ ∃ m, (forward_from os src dst fds st).sys.trace = st.sys.trace ++
        [Event.read src.fd 1024 (os.read st.sys.world src.fd 1024).2.1
           ((os.read st.sys.world src.fd 1024).2.2.take 1024), Event.printf m] := by
  have hnot : ¬ ((os.read st.sys.world src.fd 1024).2.1 > 0) := by omega
  simp only [forward_from, h, if_true, serial_read, hr, hnot, if_false, true_and]
  split
  · exact ⟨Msg.read_eof src.devname, by simp [Sys.emit, Sys.setWorld]⟩
  · split
    · exact ⟨Msg.read_interrupt src.devname, by simp [Sys.emit, Sys.setWorld]⟩
    · exact ⟨Msg.read_error src.devname, by simp [Sys.emit, Sys.setWorld]⟩

theorem forward_from_quit {σ : Type} (os : OS σ) (src dst : serial_data) (fds : List Int)
    (st : Fwd σ) :
    (forward_from os src dst fds st).quit = st.quit
    ∨ (forward_from os src dst fds st).quit = 1 := by
  by_cases h : FD_ISSET src.fd fds = true
  · by_cases hr : (serial_read os src 1024 st).1 > 0
    · left
      simp only [forward_from, h, if_true, hr]
      rw [serial_write_quit, serial_read_quit]
    · right
      simp only [forward_from, h, if_true, hr, if_false]
  · left; simp [forward_from, h]

theorem forward_body_eq {σ : Type} (os : OS σ) (s1 s2 : serial_data) (st : Fwd σ)
    (hsel : select_fatal os (after_select os s1 s2 st).sys.world
      (select_ret os s1 s2 st) = false) :
    forward_body os s1 s2 st
      = forward_from os s2 s1 (ready_set os s1 s2 st) (after_first os s1 s2 st) := by
  simp only [after_select, select_ret] at hsel
  simp only [forward_body, after_first, ready_set, after_select, hsel, Bool.false_eq_true,
    if_false]

theorem forward_loop_last {σ : Type} (os : OS σ) (s1 s2 : serial_data) (st : Fwd σ)
    (hq : st.quit = 0) (hb : (forward_body os s1 s2 st).quit ≠ 0) (fuel : Nat) :
    forward_loop os s1 s2 (fuel + 1) st = some (forward_body os s1 s2 st) := by
  cases fuel with
  | zero => simp [forward_loop, hq, hb]
  | succ k => simp [forward_loop, hq, hb]

theorem forward_from_reads {σ : Type} (os : OS σ) (src dst : serial_data) (fds : List Int)
    (st : Fwd σ) (h : FD_ISSET src.fd fds = true) :
    ∃ rest, (forward_from os src dst fds st).sys.trace = st.sys.trace ++
      Event.read src.fd 1024 (os.read st.sys.world src.fd 1024).2.1
        ((os.read st.sys.world src.fd 1024).2.2.take 1024) :: rest := by
  by_cases hr : (os.read st.sys.world src.fd 1024).2.1 ≤ 0
  · obtain ⟨-, m, hm⟩ := forward_from_end os src dst fds st h hr
    exact ⟨[Event.printf m], hm⟩
  · have hpos : (os.read st.sys.world src.fd 1024).2.1 > 0 := by omega
    refine ⟨[Event.write dst.fd (List.take (os.read st.sys.world src.fd 1024).2.1.toNat
      (store st.buf ((os.read st.sys.world src.fd 1024).2.2.take 1024)))], ?_⟩
    simp [forward_from, h, serial_read, serial_write, hr, hpos, Sys.emit, Sys.setWorld]

/-! ## The forwarding loop (C1, C4, C8, C9, C10) -/

/-- C1: in an iteration of `start_forward` in which `select` is not fatal,
when the first handle is readable and its read returns `n` bytes `data`
with `1 ≤ n ≤ 1024`, the first block issues exactly that read and one write,
to the second handle, of exactly `data`, the operating system receives
`data` in that write, and `quit` is unchanged; symmetrically the second
block, for a read on the second handle, issues exactly the read and one
write of `data` to the first handle.  The loop body is the second block
after the first. -/
theorem start_forward_relays {σ : Type} (os : OS σ) (s1 s2 : serial_data) (st : Fwd σ)
    (w : σ) (n : Nat) (data : List Byte)
    (hsel : select_fatal os (after_select os s1 s2 st).sys.world
      (select_ret os s1 s2 st) = false)
    (hn : 1 ≤ n) (hn2 : n ≤ 1024) (hlen : data.length = n) :
    forward_body os s1 s2 st
      = forward_from os s2 s1 (ready_set os s1 s2 st)
          (after_first os s1 s2 st)
    ∧ (FD_ISSET s1.fd (ready_set os s1 s2 st) = true →
        os.read (after_select os s1 s2 st).sys.world s1.fd 1024 = (w, (n : Int), data) →
        (after_first os s1 s2 st).sys.trace
          = (after_select os s1 s2 st).sys.trace
            ++ [Event.read s1.fd 1024 n data, Event.write s2.fd data]
        ∧ (after_first os s1 s2 st).sys.world = (os.write w s2.fd data).1
        ∧ (after_first os s1 s2 st).quit = st.quit)
    ∧ (FD_ISSET s2.fd (ready_set os s1 s2 st) = true →
        os.read (after_first os s1 s2 st).sys.world s2.fd 1024 = (w, (n : Int), data) →
        (forward_body os s1 s2 st).sys.trace
          = (after_first os s1 s2 st).sys.trace
            ++ [Event.read s2.fd 1024 n data, Event.write s1.fd data]
        ∧ (forward_body os s1 s2 st).sys.world = (os.write w s1.fd data).1
        ∧ (forward_body os s1 s2 st).quit
            = (after_first os s1 s2 st).quit) := by
  have hbody : forward_body os s1 s2 st
      = forward_from os s2 s1 (ready_set os s1 s2 st)
          (after_first os s1 s2 st) := by
    exact forward_body_eq os s1 s2 st hsel
  refine ⟨hbody, ?_, ?_⟩
  · intro hset hread
    unfold after_first
    rw [forward_from_data os s1 s2 _ _ w n data hset hread hn hn2 hlen]
    exact ⟨rfl, rfl, rfl⟩
  · intro hset hread
    rw [hbody, forward_from_data os s2 s1 _ _ w n data hset hread hn hn2 hlen]
    exact ⟨rfl, rfl, rfl⟩

/-- Witness for C1: with only descriptor 3 readable and a read of the three
bytes 104, 105, 10, the iteration issues the `select`, the read, and one
write of those bytes to descriptor 4, which the world receives. -/
theorem start_forward_relays_witness :
    (forward_body script_os dev_a dev_b (Fwd.enter world_a_has_data)).sys.trace
      = [Event.select 5 [4, 3] 1, Event.read 3 1024 3 [104, 105, 10],
         Event.write 4 [104, 105, 10]]
    ∧ (forward_body script_os dev_a dev_b (Fwd.enter world_a_has_data)).sys.world.written
      = [(4, [104, 105, 10])] := by
  have h := start_forward_relays script_os dev_a dev_b (Fwd.enter world_a_has_data)
    { world_a_has_data with selects := [], reads := [] } 3 [104, 105, 10]
    rfl (by decide) (by decide) rfl
  obtain ⟨hb, h1, -⟩ := h
  obtain ⟨ht, hw, -⟩ := h1 rfl rfl
  have hskip : FD_ISSET dev_b.fd
      (ready_set script_os dev_a dev_b (Fwd.enter world_a_has_data)) = false := rfl
  rw [hb, forward_from_skip _ _ _ _ _ hskip, ht, hw]
  exact ⟨rfl, rfl⟩

/-- C4: in an iteration of `start_forward` that starts with `quit = 0` and in
which `select` is not fatal, when the read on a readable handle returns zero
or a negative value, the block of that handle issues the read and a
diagnostic line and no write, `quit` is 1 at the end of the iteration, and
the loop returns after this iteration whatever fuel is left. -/
theorem start_forward_stops_on_end {σ : Type} (os : OS σ) (s1 s2 : serial_data)
    (st : Fwd σ) (hq : st.quit = 0)
    (hsel : select_fatal os (after_select os s1 s2 st).sys.world
      (select_ret os s1 s2 st) = false) :
    (FD_ISSET s1.fd (ready_set os s1 s2 st) = true →
      (os.read (after_select os s1 s2 st).sys.world s1.fd 1024).2.1 ≤ 0 →
      (∃ m, (after_first os s1 s2 st).sys.trace
          = (after_select os s1 s2 st).sys.trace ++
            [Event.read s1.fd 1024
               (os.read (after_select os s1 s2 st).sys.world s1.fd 1024).2.1
               ((os.read (after_select os s1 s2 st).sys.world s1.fd 1024).2.2.take 1024),
             Event.printf m])
      ∧ (after_first os s1 s2 st).quit = 1
      ∧ (forward_body os s1 s2 st).quit = 1
      ∧ ∀ fuel, forward_loop os s1 s2 (fuel + 1) st = some (forward_body os s1 s2 st))
    ∧ (FD_ISSET s2.fd (ready_set os s1 s2 st) = true →
      (os.read (after_first os s1 s2 st).sys.world s2.fd 1024).2.1 ≤ 0 →
      (∃ m, (forward_body os s1 s2 st).sys.trace
          = (after_first os s1 s2 st).sys.trace ++
            [Event.read s2.fd 1024
               (os.read (after_first os s1 s2 st).sys.world s2.fd 1024).2.1
               ((os.read (after_first os s1 s2 st).sys.world s2.fd 1024).2.2.take 1024),
             Event.printf m])
      ∧ (forward_body os s1 s2 st).quit = 1
      ∧ ∀ fuel, forward_loop os s1 s2 (fuel + 1) st = some (forward_body os s1 s2 st)) := by
  have hbody := forward_body_eq os s1 s2 st hsel
  refine ⟨?_, ?_⟩
  · intro hset hret
    have hend := forward_from_end os s1 s2 _ _ hset hret
    have hmid : (after_first os s1 s2 st).quit = 1 := hend.1
    have hbq : (forward_body os s1 s2 st).quit = 1 := by
      rw [hbody]
      rcases forward_from_quit os s2 s1 (ready_set os s1 s2 st) (after_first os s1 s2 st)
        with h | h
      · rw [h, hmid]
      · exact h
    refine ⟨hend.2, hmid, hbq, fun fuel => ?_⟩
    exact forward_loop_last os s1 s2 st hq (by rw [hbq]; decide) fuel
  · intro hset hret
    have hend := forward_from_end os s2 s1 _ _ hset hret
    rw [← hbody] at hend
    refine ⟨hend.2, hend.1, fun fuel => ?_⟩
    exact forward_loop_last os s1 s2 st hq (by rw [hend.1]; decide) fuel

/-- Witness for C4: descriptor 3 is readable and its read returns 0.  The
iteration issues no write, and the loop returns after it. -/
theorem start_forward_stops_on_end_witness :
    (forward_body script_os dev_a dev_b (Fwd.enter world_a_eof)).quit = 1
    ∧ forward_loop script_os dev_a dev_b 8 (Fwd.enter world_a_eof)
        = some (forward_body script_os dev_a dev_b (Fwd.enter world_a_eof))
    ∧ (forward_body script_os dev_a dev_b (Fwd.enter world_a_eof)).sys.trace
        = [Event.select 5 [4, 3] 1, Event.read 3 1024 0 [],
           Event.printf (Msg.read_eof ['/', 'd', 'e', 'v', '/', 'a'])] := by
  have h := (start_forward_stops_on_end script_os dev_a dev_b (Fwd.enter world_a_eof)
    rfl rfl).1 rfl (by decide)
  exact ⟨h.2.2.1, h.2.2.2 7, rfl⟩

/-- C8, what the code does at the failing input: `select` returns -1 with
`errno = EINTR` and leaves both descriptors in the set.  The iteration goes
on to read the first handle and then the second; here the first read is
interrupted too and the second is at end of stream, so `quit` becomes 1 and
the loop ends. -/
theorem start_forward_eintr_reads :
    select_ret script_os dev_a dev_b (Fwd.enter world_select_eintr) = -1
    ∧ script_os.errno (after_select script_os dev_a dev_b
        (Fwd.enter world_select_eintr)).sys.world = EINTR
    ∧ ready_set script_os dev_a dev_b (Fwd.enter world_select_eintr)
        = FD_SET dev_b.fd (FD_SET dev_a.fd FD_ZERO)
    ∧ (forward_body script_os dev_a dev_b (Fwd.enter world_select_eintr)).sys.trace
        = [Event.select 5 [4, 3] (-1),
           Event.read 3 1024 (-1) [],
           Event.printf (Msg.read_interrupt ['/', 'd', 'e', 'v', '/', 'a']),
           Event.read 4 1024 0 [],
           Event.printf (Msg.read_eof ['/', 'd', 'e', 'v', '/', 'b'])]
    ∧ (forward_body script_os dev_a dev_b (Fwd.enter world_select_eintr)).quit = 1
    ∧ forward_loop script_os dev_a dev_b 8 (Fwd.enter world_select_eintr)
        = some (forward_body script_os dev_a dev_b (Fwd.enter world_select_eintr)) := by
  refine ⟨rfl, rfl, rfl, rfl, rfl, rfl⟩

/-- C9: when `select` returns a negative value with an error other than
`EINTR`, the iteration issues no call after the `select` (no read, no
write), prints the diagnostic, sets `quit`, and the loop returns after this
iteration.  The error is what `errno` holds after the failed call, which the
contract of `select` makes a non-zero number. -/
theorem start_forward_select_error {σ : Type} (os : OS σ) (s1 s2 : serial_data)
    (st : Fwd σ) (hq : st.quit = 0)
    (hc : select_sets_errno os s1 s2 st)
    (hret : select_ret os s1 s2 st < 0)
    (he : os.errno (after_select os s1 s2 st).sys.world ≠ EINTR) :
    (after_select os s1 s2 st).sys.trace
      = st.sys.trace ++ [Event.select ((if s1.fd > s2.fd then s1.fd else s2.fd) + 1)
          [s2.fd, s1.fd] (select_ret os s1 s2 st)]
    ∧ (forward_body os s1 s2 st).sys.trace
      = (after_select os s1 s2 st).sys.trace ++ [Event.printf Msg.select_error]
    ∧ (forward_body os s1 s2 st).sys.world = (after_select os s1 s2 st).sys.world
    ∧ (forward_body os s1 s2 st).quit = 1
    ∧ ∀ fuel, forward_loop os s1 s2 (fuel + 1) st = some (forward_body os s1 s2 st) := by
  have h0 : os.errno (after_select os s1 s2 st).sys.world ≠ 0 := hc hret
  have hf : select_fatal os (forward_select os s1 s2 st).1.sys.world
      (forward_select os s1 s2 st).2.1 = true := by
    simp only [after_select, select_ret] at hret he h0
    simp [select_fatal, hret, he, h0]
  have hb : forward_body os s1 s2 st
      = { (after_select os s1 s2 st) with
          sys := (after_select os s1 s2 st).sys.emit (Event.printf Msg.select_error),
          quit := 1 } := by
    simp only [forward_body, hf, if_true, after_select]
  refine ⟨rfl, ?_, ?_, ?_, fun fuel => ?_⟩
  · rw [hb]; rfl
  · rw [hb]; rfl
  · rw [hb]
  · have hquit : (forward_body os s1 s2 st).quit = 1 := by rw [hb]
    exact forward_loop_last os s1 s2 st hq (by rw [hquit]; decide) fuel

/-- Witness for C9: a scripted `select` that fails with `errno = 9` stops
the loop in that iteration with no read and no write. -/
theorem start_forward_select_error_witness :
    select_sets_errno script_os dev_a dev_b (Fwd.enter world_select_fails)
    ∧ forward_loop script_os dev_a dev_b 8 (Fwd.enter world_select_fails)
      = some (forward_body script_os dev_a dev_b (Fwd.enter world_select_fails))
    ∧ (forward_body script_os dev_a dev_b (Fwd.enter world_select_fails)).sys.trace
      = [Event.select 5 [4, 3] (-1), Event.printf Msg.select_error] := by
  have hc : select_sets_errno script_os dev_a dev_b (Fwd.enter world_select_fails) :=
    fun _ => by decide
  have h := start_forward_select_error script_os dev_a dev_b
    (Fwd.enter world_select_fails) rfl hc (by decide) (by decide)
  exact ⟨hc, h.2.2.2.2 7, rfl⟩

theorem select_ok_not_fatal {σ : Type} (os : OS σ) (w : σ) (ret : Int) (h : 0 ≤ ret) :
    select_fatal os w ret = false := by
  have : ¬ ret < 0 := by omega
  simp [select_fatal, this]

/-- C10: in an iteration of `start_forward` in which `select` succeeds, the
block of a handle issues a read exactly when `select` left that handle in
the descriptor set, and issues no call at all otherwise.  When only the
first handle is readable and its read returns `n > 0` bytes, the whole
iteration after the `select` is that read and the write of those bytes to
the second handle, with no read of the second handle; symmetrically when
only the second handle is readable. -/
theorem start_forward_reads_ready {σ : Type} (os : OS σ) (s1 s2 : serial_data)
    (st : Fwd σ) (hret : 0 ≤ select_ret os s1 s2 st) :
    forward_body os s1 s2 st
      = forward_from os s2 s1 (ready_set os s1 s2 st) (after_first os s1 s2 st)
    ∧ (FD_ISSET s1.fd (ready_set os s1 s2 st) = false →
        after_first os s1 s2 st = after_select os s1 s2 st)
    ∧ (FD_ISSET s1.fd (ready_set os s1 s2 st) = true →
        ∃ rest, (after_first os s1 s2 st).sys.trace
          = (after_select os s1 s2 st).sys.trace ++
            Event.read s1.fd 1024
              (os.read (after_select os s1 s2 st).sys.world s1.fd 1024).2.1
              ((os.read (after_select os s1 s2 st).sys.world s1.fd 1024).2.2.take 1024)
            :: rest)
    ∧ (FD_ISSET s2.fd (ready_set os s1 s2 st) = false →
        forward_body os s1 s2 st = after_first os s1 s2 st)
    ∧ (FD_ISSET s2.fd (ready_set os s1 s2 st) = true →
        ∃ rest, (forward_body os s1 s2 st).sys.trace
          = (after_first os s1 s2 st).sys.trace ++
            Event.read s2.fd 1024
              (os.read (after_first os s1 s2 st).sys.world s2.fd 1024).2.1
              ((os.read (after_first os s1 s2 st).sys.world s2.fd 1024).2.2.take 1024)
            :: rest)
    ∧ (∀ (w : σ) (n : Nat) (data : List Byte),
        FD_ISSET s1.fd (ready_set os s1 s2 st) = true →
        FD_ISSET s2.fd (ready_set os s1 s2 st) = false →
        os.read (after_select os s1 s2 st).sys.world s1.fd 1024 = (w, (n : Int), data) →
        1 ≤ n → n ≤ 1024 → data.length = n →
        (forward_body os s1 s2 st).sys.trace
          = (after_select os s1 s2 st).sys.trace ++
            [Event.read s1.fd 1024 n data, Event.write s2.fd data])
    ∧ (∀ (w : σ) (n : Nat) (data : List Byte),
        FD_ISSET s1.fd (ready_set os s1 s2 st) = false →
        FD_ISSET s2.fd (ready_set os s1 s2 st) = true →
        os.read (after_select os s1 s2 st).sys.world s2.fd 1024 = (w, (n : Int), data) →
        1 ≤ n → n ≤ 1024 → data.length = n →
        (forward_body os s1 s2 st).sys.trace
          = (after_select os s1 s2 st).sys.trace ++
            [Event.read s2.fd 1024 n data, Event.write s1.fd data]) := by
  have hsel := select_ok_not_fatal os (after_select os s1 s2 st).sys.world _ hret
  have hbody := forward_body_eq os s1 s2 st hsel
  refine ⟨hbody, ?_, ?_, ?_, ?_, ?_, ?_⟩
  · intro h
    exact forward_from_skip os s1 s2 _ _ h
  · intro h
    exact forward_from_reads os s1 s2 _ _ h
  · intro h
    rw [hbody]
    exact forward_from_skip os s2 s1 _ _ h
  · intro h
    rw [hbody]
    exact forward_from_reads os s2 s1 _ _ h
  · intro w n data h1 h2 hread hn hn2 hlen
    rw [hbody, forward_from_skip os s2 s1 _ _ h2]
    unfold after_first
    rw [forward_from_data os s1 s2 _ _ w n data h1 hread hn hn2 hlen]
  · intro w n data h1 h2 hread hn hn2 hlen
    have hmid : after_first os s1 s2 st = after_select os s1 s2 st :=
      forward_from_skip os s1 s2 _ _ h1
    rw [hbody, hmid, forward_from_data os s2 s1 _ _ w n data h2 hread hn hn2 hlen]

/-- Witness for C10: `select` returns 1 with only descriptor 4 in the set;
the iteration reads descriptor 4 and writes the two bytes to descriptor 3,
and issues no read on descriptor 3. -/
theorem start_forward_reads_ready_witness :
    (forward_body script_os dev_a dev_b (Fwd.enter world_b_has_data)).sys.trace
      = [Event.select 5 [4, 3] 1, Event.read 4 1024 2 [111, 107],
         Event.write 3 [111, 107]] := by
  have h := (start_forward_reads_ready script_os dev_a dev_b (Fwd.enter world_b_has_data)
    (by decide)).2.2.2.2.2.2
    { world_b_has_data with selects := [], reads := [] } 2 [111, 107]
    rfl rfl rfl (by decide) (by decide) rfl
  rw [h]
  rfl

/-! ## The handle life cycle (C5, C6, C7) -/

theorem setparams_all_frame {σ : Type} (os : OS σ) (calls : List Params)
    (x : serial_data × Sys σ) :
    (setparams_all os calls x).1 = { x.1 with tty := (setparams_all os calls x).1.tty } := by
  induction calls generalizing x with
  | nil => rfl
  | cons p ps ih =>
    rw [setparams_all]
    rw [ih]
    rfl

/-- C5: for a handle `sd` that `serial_open` returned, `old_tty` is what
`tcgetattr` returned inside `serial_open`; any sequence of `serial_setparams`
calls leaves `old_tty`, `fd`, `devname` and the address of the handle as they
were and changes only `tty`; and `serial_close` on the resulting handle, in
whatever state the run is by then, applies exactly that saved configuration
with `tcsetattr(fd, TCSANOW, ...)`, then closes `fd` and frees the handle. -/
theorem serial_close_restores {σ : Type} (os : OS σ) (devname : CharPtr) (st : Sys σ)
    (sd : serial_data) (calls : List Params)
    (hopen : (serial_open os devname st).1 = some sd) :
    sd.old_tty
      = (os.tcgetattr (os.sys_open st.world devname open_flags).1
          (os.sys_open st.world devname open_flags).2).2
    ∧ sd.fd = (os.sys_open st.world devname open_flags).2
    ∧ (setparams_all os calls (sd, (serial_open os devname st).2)).1
      = { sd with
          tty := (setparams_all os calls (sd, (serial_open os devname st).2)).1.tty }
    ∧ ∀ st1 : Sys σ,
        (serial_close os
            (some (setparams_all os calls (sd, (serial_open os devname st).2)).1) st1).trace
          = st1.trace ++ [Event.tcsetattr sd.fd TCSANOW sd.old_tty,
              Event.sys_close sd.fd, Event.free sd.addr]
        ∧ (serial_close os
            (some (setparams_all os calls (sd, (serial_open os devname st).2)).1) st1).world
          = os.sys_close (os.tcsetattr st1.world sd.fd TCSANOW sd.old_tty) sd.fd := by
  have hframe := setparams_all_frame os calls (sd, (serial_open os devname st).2)
  refine ⟨?_, ?_, hframe, ?_⟩
  · unfold serial_open at hopen
    simp only [] at hopen
    split at hopen
    · simp at hopen
    · simp only [Option.some.injEq] at hopen
      rw [← hopen]
      simp only [Sys.emit, Sys.setWorld]
  · unfold serial_open at hopen
    simp only [] at hopen
    split at hopen
    · simp at hopen
    · simp only [Option.some.injEq] at hopen
      rw [← hopen]
  · intro st1
    rw [hframe]
    simp [serial_close, Sys.emit, Sys.setWorld]

/-- Witness for C5: a device found in `cooked_tty` is opened, configured
twice, and closed; the last configuration applied to it is `cooked_tty`. -/
theorem serial_close_restores_witness :
    (serial_open script_os (CharPtr.str ['/', 'd', 'e', 'v', '/', 'a'])
        (Sys.start world_one_device)).1
      = some { dev_a with old_tty := cooked_tty }
    ∧ (serial_close script_os
        (some (setparams_all script_os
          [{ baudrate := 115200, parity := 'n', databits := 8, stopbits := 1, hwflow := 0 },
           { baudrate := 57600, parity := 'e', databits := 7, stopbits := 2, hwflow := 1 }]
          ({ dev_a with old_tty := cooked_tty },
           (serial_open script_os (CharPtr.str ['/', 'd', 'e', 'v', '/', 'a'])
             (Sys.start world_one_device)).2)).1)
        (Sys.start world_one_device)).trace
      = [Event.tcsetattr 3 TCSANOW cooked_tty, Event.sys_close 3, Event.free 0] := by
  have hopen : (serial_open script_os (CharPtr.str ['/', 'd', 'e', 'v', '/', 'a'])
      (Sys.start world_one_device)).1 = some { dev_a with old_tty := cooked_tty } := rfl
  have h := (serial_close_restores script_os (CharPtr.str ['/', 'd', 'e', 'v', '/', 'a'])
    (Sys.start world_one_device) { dev_a with old_tty := cooked_tty }
    [{ baudrate := 115200, parity := 'n', databits := 8, stopbits := 1, hwflow := 0 },
     { baudrate := 57600, parity := 'e', databits := 7, stopbits := 2, hwflow := 1 }]
    hopen).2.2.2 (Sys.start world_one_device)
  exact ⟨hopen, h.1⟩

theorem parse_serial_name_some (s : List Char) (n0 : CharPtr) (b : Option Int) (d : Int) :
    ∃ p, parse_serial_name s (some n0) b d = some p := by
  rcases first_comma_split s with hc | ⟨p, r, hp, rfl⟩
  · exact ⟨_, parse_serial_name_no_comma s n0 b d hc⟩
  · exact ⟨_, parse_serial_name_comma p r n0 b d hp⟩

theorem main_eq {σ : Type} (os : OS σ) (argv : List (List Char)) (buf0 : List Byte)
    (fuel : Nat) (st : Sys σ) :
    main os argv buf0 fuel st =
      if argv.length ≠ 3 then some (-1, show_usage argv.head? st)
      else
        match (main_open1 os argv st).1 with
        | none =>
          some (-1, (main_open1 os argv st).2.emit
            (Event.printf (Msg.cannot_open (main_parse (argv.getD 1 [])).name)))
        | some s1 =>
          match (main_open2 os argv st).1 with
          | none =>
            some (-1, serial_close os (some s1) ((main_open2 os argv st).2.emit
              (Event.printf (Msg.cannot_open (main_parse (argv.getD 2 [])).name))))
          | some s2 => main_forward os argv buf0 fuel st s1 s2 := by
  obtain ⟨p1, hp1⟩ := parse_serial_name_some (argv.getD 1 []) CharPtr.uninit (some 0) 115200
  obtain ⟨p2, hp2⟩ := parse_serial_name_some (argv.getD 2 []) CharPtr.uninit (some 0) 115200
  have h1 : main_parse (argv.getD 1 []) = p1 := by unfold main_parse; rw [hp1]; rfl
  have h2 : main_parse (argv.getD 2 []) = p2 := by unfold main_parse; rw [hp2]; rfl
  unfold main main_forward main_setup main_open2 main_open1
  rw [h1, h2, hp1, hp2]
  simp only []
  split
  · rfl
  · split
    · rfl
    · split
      · rfl
      · cases start_forward os _ _ buf0 fuel _ <;> rfl

theorem heap_view_emit {σ : Type} (st : Sys σ) (e : Event)
    (h1 : ∀ a, e ≠ Event.malloc a) (h2 : ∀ a, e ≠ Event.free a) :
    heap_view (st.emit e) = heap_view st := by
  cases e <;> simp_all [heap_view, Sys.emit, allocated, freed, List.filterMap_append]

theorem heap_view_setWorld {σ : Type} (st : Sys σ) (w : σ) :
    heap_view (st.setWorld w) = heap_view st := rfl

theorem forward_from_heap {σ : Type} (os : OS σ) (src dst : serial_data) (fds : List Int)
    (st : Fwd σ) :
    heap_view (forward_from os src dst fds st).sys = heap_view st.sys := by
  unfold forward_from serial_read serial_write
  simp only []
  split_ifs <;>
    simp [heap_view_emit, heap_view_setWorld]

theorem forward_body_heap {σ : Type} (os : OS σ) (s1 s2 : serial_data) (st : Fwd σ) :
    heap_view (forward_body os s1 s2 st).sys = heap_view st.sys := by
  unfold forward_body
  simp only []
  split_ifs
  · simp [heap_view_emit, forward_select, heap_view_setWorld]
  · rw [forward_from_heap, forward_from_heap]
    simp [heap_view_emit, forward_select, heap_view_setWorld]

theorem forward_loop_heap {σ : Type} (os : OS σ) (s1 s2 : serial_data) (fuel : Nat)
    (st st1 : Fwd σ) (h : forward_loop os s1 s2 fuel st = some st1) :
    heap_view st1.sys = heap_view st.sys := by
  induction fuel generalizing st with
  | zero =>
    unfold forward_loop at h
    split_ifs at h
    simp only [Option.some.injEq] at h
    rw [← h]
  | succ k ih =>
    unfold forward_loop at h
    split_ifs at h
    · simp only [Option.some.injEq] at h
      rw [← h]
    · rw [ih _ h, forward_body_heap]

theorem start_forward_heap {σ : Type} (os : OS σ) (s1 s2 : serial_data) (buf0 : List Byte)
    (fuel : Nat) (st st1 : Sys σ) (h : start_forward os s1 s2 buf0 fuel st = some st1) :
    heap_view st1 = heap_view st := by
  unfold start_forward at h
  simp only [Option.map_eq_some'] at h
  obtain ⟨f, hf, rfl⟩ := h
  exact forward_loop_heap os s1 s2 fuel _ f hf

theorem serial_setparams_heap {σ : Type} (os : OS σ) (sd : serial_data) (b : Int) (p : Char)
    (d s h : Int) (st : Sys σ) :
    heap_view (serial_setparams os sd b p d s h st).2 = heap_view st
    ∧ (serial_setparams os sd b p d s h st).1.addr = sd.addr := by
  simp [serial_setparams, heap_view_emit, heap_view_setWorld]

theorem serial_close_heap {σ : Type} (os : OS σ) (sd : serial_data) (st : Sys σ) :
    heap_view (serial_close os (some sd) st)
      = (st.nalloc, allocated st.trace, freed st.trace ++ [sd.addr]) := by
  simp [serial_close, heap_view, Sys.emit, Sys.setWorld, allocated, freed,
    List.filterMap_append]

theorem serial_open_heap {σ : Type} (os : OS σ) (devname : CharPtr) (st : Sys σ) :
    ((serial_open os devname st).1 = none
      ∧ heap_view (serial_open os devname st).2 = heap_view st)
    ∨ (∃ sd, (serial_open os devname st).1 = some sd ∧ sd.addr = st.nalloc
      ∧ heap_view (serial_open os devname st).2
        = (st.nalloc + 1, allocated st.trace ++ [st.nalloc], freed st.trace)) := by
  unfold serial_open
  simp only []
  split_ifs
  · left
    simp [heap_view_emit, heap_view_setWorld]
  · right
    refine ⟨_, rfl, rfl, ?_⟩
    simp [heap_view, Sys.emit, Sys.setWorld, allocated, freed, List.filterMap_append]

theorem main_heap_cases {σ : Type} (os : OS σ) (argv : List (List Char))
    (buf0 : List Byte) (fuel : Nat) (w : σ) (r : Int × Sys σ)
    (h : main os argv buf0 fuel (Sys.start w) = some r) :
    (argv.length ≠ 3 ∧ heap_view r.2 = (0, [], []))
    ∨ (argv.length = 3 ∧ (main_open1 os argv (Sys.start w)).1 = none
        ∧ heap_view r.2 = (0, [], []))
    ∨ (argv.length = 3 ∧ ∃ s1, (main_open1 os argv (Sys.start w)).1 = some s1
        ∧ (main_open2 os argv (Sys.start w)).1 = none ∧ s1.addr = 0
        ∧ heap_view r.2 = (1, [0], [0]))
    ∨ (argv.length = 3 ∧ ∃ s1 s2, (main_open1 os argv (Sys.start w)).1 = some s1
        ∧ (main_open2 os argv (Sys.start w)).1 = some s2 ∧ s1.addr = 0 ∧ s2.addr = 1
        ∧ heap_view r.2 = (2, [0, 1], [1, 0])) := by
  rw [main_eq] at h
  by_cases hl : argv.length ≠ 3
  · left
    rw [if_pos hl] at h
    simp only [Option.some.injEq] at h
    rw [← h]
    exact ⟨hl, rfl⟩
  · right
    rw [if_neg hl] at h
    have hl3 : argv.length = 3 := not_not.mp hl
    have hstart : heap_view (Sys.start w) = (0, [], []) := rfl
    rcases serial_open_heap os (main_parse (argv.getD 1 [])).name (Sys.start w) with
      ⟨ho1, hv1⟩ | ⟨s1, ho1, ha1, hv1⟩
    · left
      have ho1m : (main_open1 os argv (Sys.start w)).1 = none := ho1
      rw [ho1m] at h
      simp only [Option.some.injEq] at h
      rw [← h]
      refine ⟨hl3, ho1m, ?_⟩
      rw [heap_view_emit _ _ (by simp) (by simp)]
      exact hv1.trans hstart
    · right
      have ho1m : (main_open1 os argv (Sys.start w)).1 = some s1 := ho1
      have hv1m : heap_view (main_open1 os argv (Sys.start w)).2 = (1, [0], []) := hv1
      rw [ho1m] at h
      simp only [] at h
      rcases serial_open_heap os (main_parse (argv.getD 2 [])).name
          (main_open1 os argv (Sys.start w)).2 with ⟨ho2, hv2⟩ | ⟨s2, ho2, ha2, hv2⟩
      · left
        have ho2m : (main_open2 os argv (Sys.start w)).1 = none := ho2
        have hv2m : heap_view (main_open2 os argv (Sys.start w)).2 = (1, [0], []) :=
          hv2.trans hv1m
        rw [ho2m] at h
        simp only [Option.some.injEq] at h
        rw [← h]
        refine ⟨hl3, s1, ho1m, ho2m, ha1, ?_⟩
        have he := heap_view_emit (main_open2 os argv (Sys.start w)).2
          (Event.printf (Msg.cannot_open (main_parse (argv.getD 2 [])).name))
          (by simp) (by simp)
        rw [hv2m] at he
        rw [serial_close_heap]
        have e1 := congrArg (fun x => x.1) he
        have e2 := congrArg (fun x => x.2.1) he
        have e3 := congrArg (fun x => x.2.2) he
        simp only [heap_view] at e1 e2 e3
        rw [e1, e2, e3, ha1]
        rfl
      · right
        have ho2m : (main_open2 os argv (Sys.start w)).1 = some s2 := ho2
        have hn1 : (main_open1 os argv (Sys.start w)).2.nalloc = 1 :=
          congrArg (fun x => x.1) hv1m
        have hA1 : allocated (main_open1 os argv (Sys.start w)).2.trace = [0] :=
          congrArg (fun x => x.2.1) hv1m
        have hF1 : freed (main_open1 os argv (Sys.start w)).2.trace = [] :=
          congrArg (fun x => x.2.2) hv1m
        have hv2m : heap_view (main_open2 os argv (Sys.start w)).2 = (2, [0, 1], []) := by
          rw [show heap_view (main_open2 os argv (Sys.start w)).2 = _ from hv2, hn1, hA1, hF1]
          rfl
        rw [ho2m] at h
        simp only [main_forward, Option.map_eq_some'] at h
        obtain ⟨st1, hst1, hr⟩ := h
        rw [← hr]
        have hs1 := start_forward_heap os _ _ buf0 fuel _ st1 hst1
        have hsetup : heap_view (main_setup os argv (Sys.start w) s1 s2).2
            = (2, [0, 1], []) := by
          unfold main_setup
          simp only []
          rw [(serial_setparams_heap os _ _ _ _ _ _ _).1,
            (serial_setparams_heap os _ _ _ _ _ _ _).1]
          exact hv2m
        have hc1 : (main_setup os argv (Sys.start w) s1 s2).1.1.addr = 0 := by
          unfold main_setup
          simp only []
          rw [(serial_setparams_heap os _ _ _ _ _ _ _).2, ha1]
          rfl
        have hc2 : (main_setup os argv (Sys.start w) s1 s2).1.2.addr = 1 := by
          unfold main_setup
          simp only []
          rw [(serial_setparams_heap os _ _ _ _ _ _ _).2, ha2, hn1]
        rw [hsetup] at hs1
        refine ⟨hl3, s1, s2, ho1m, ho2m, ha1, by rw [ha2, hn1], ?_⟩
        have hmid := serial_close_heap os (main_setup os argv (Sys.start w) s1 s2).1.2 st1
        have e1 := congrArg (fun x => x.1) hs1
        have e2 := congrArg (fun x => x.2.1) hs1
        have e3 := congrArg (fun x => x.2.2) hs1
        simp only [heap_view] at e1 e2 e3
        rw [e1, e2, e3, hc2] at hmid
        have m1 := congrArg (fun x => x.1) hmid
        have m2 := congrArg (fun x => x.2.1) hmid
        have m3 := congrArg (fun x => x.2.2) hmid
        simp only [heap_view] at m1 m2 m3
        rw [serial_close_heap, m1, m2, m3, hc1]
        rfl

/-- C6: when `main` returns, started with an empty trace, no handle was
allocated twice and the handles freed by `serial_close` are exactly the
handles allocated by `serial_open`, each one once.  Path by path: with a
wrong argument count or a failed first open no handle exists; when the
second open fails the first handle is the only one allocated and is closed
once; when forwarding ends the two handles are distinct and are closed once
each, the second before the first. -/
theorem main_closes_each_handle_once {σ : Type} (os : OS σ) (argv : List (List Char))
    (buf0 : List Byte) (fuel : Nat) (w : σ) (r : Int × Sys σ)
    (h : main os argv buf0 fuel (Sys.start w) = some r) :
    (allocated r.2.trace).Nodup
    ∧ (freed r.2.trace).Perm (allocated r.2.trace)
    ∧ (argv.length ≠ 3 → allocated r.2.trace = [] ∧ freed r.2.trace = [])
    ∧ (argv.length = 3 → (main_open1 os argv (Sys.start w)).1 = none →
        allocated r.2.trace = [] ∧ freed r.2.trace = [])
    ∧ (argv.length = 3 → ∀ s1, (main_open1 os argv (Sys.start w)).1 = some s1 →
        (main_open2 os argv (Sys.start w)).1 = none →
        allocated r.2.trace = [s1.addr] ∧ freed r.2.trace = [s1.addr])
    ∧ (argv.length = 3 → ∀ s1 s2, (main_open1 os argv (Sys.start w)).1 = some s1 →
        (main_open2 os argv (Sys.start w)).1 = some s2 →
        s1.addr ≠ s2.addr
        ∧ allocated r.2.trace = [s1.addr, s2.addr]
        ∧ freed r.2.trace = [s2.addr, s1.addr]) := by
  have key := main_heap_cases os argv buf0 fuel w r h
  rcases key with ⟨hl, hv⟩ | ⟨hl, ho1, hv⟩ | ⟨hl, s1, ho1, ho2, ha1, hv⟩ |
    ⟨hl, s1, s2, ho1, ho2, ha1, ha2, hv⟩
  · have hA : allocated r.2.trace = [] := congrArg (fun x => x.2.1) hv
    have hF : freed r.2.trace = [] := congrArg (fun x => x.2.2) hv
    rw [hA, hF]
    exact ⟨List.nodup_nil, List.Perm.refl _, fun _ => ⟨rfl, rfl⟩, fun h3 => absurd h3 hl,
      fun h3 => absurd h3 hl, fun h3 => absurd h3 hl⟩
  · have hA : allocated r.2.trace = [] := congrArg (fun x => x.2.1) hv
    have hF : freed r.2.trace = [] := congrArg (fun x => x.2.2) hv
    rw [hA, hF]
    refine ⟨List.nodup_nil, List.Perm.refl _, fun _ => ⟨rfl, rfl⟩, fun _ _ => ⟨rfl, rfl⟩,
      ?_, ?_⟩
    · intro _ t1 ht1
      rw [ho1] at ht1
      exact absurd ht1 (by simp)
    · intro _ t1 t2 ht1
      rw [ho1] at ht1
      exact absurd ht1 (by simp)
  · have hA : allocated r.2.trace = [0] := congrArg (fun x => x.2.1) hv
    have hF : freed r.2.trace = [0] := congrArg (fun x => x.2.2) hv
    rw [hA, hF]
    refine ⟨by simp, List.Perm.refl _, fun h3 => absurd hl h3, ?_, ?_, ?_⟩
    · intro _ hn
      rw [ho1] at hn
      exact absurd hn (by simp)
    · intro _ t1 ht1 _
      rw [ho1] at ht1
      simp only [Option.some.injEq] at ht1
      rw [← ht1, ha1]
      exact ⟨rfl, rfl⟩
    · intro _ t1 t2 _ ht2
      rw [ho2] at ht2
      exact absurd ht2 (by simp)
  · have hA : allocated r.2.trace = [0, 1] := congrArg (fun x => x.2.1) hv
    have hF : freed r.2.trace = [1, 0] := congrArg (fun x => x.2.2) hv
    rw [hA, hF]
    refine ⟨by simp, List.Perm.swap 0 1 [], fun h3 => absurd hl h3, ?_, ?_, ?_⟩
    · intro _ hn
      rw [ho1] at hn
      exact absurd hn (by simp)
    · intro _ t1 _ hn
      rw [ho2] at hn
      exact absurd hn (by simp)
    · intro _ t1 t2 ht1 ht2
      rw [ho1] at ht1
      rw [ho2] at ht2
      simp only [Option.some.injEq] at ht1 ht2
      rw [← ht1, ← ht2, ha1, ha2]
      exact ⟨by decide, rfl, rfl⟩

/-- Witness for C6: the second `open` fails; `main` returns -1 and the one
handle it opened was closed once. -/
theorem main_closes_each_handle_once_witness :
    ∃ r, main script_os argv_two (List.replicate 1024 0) 8
          (Sys.start world_second_open_fails) = some r
      ∧ r.1 = -1 ∧ allocated r.2.trace = [0] ∧ freed r.2.trace = [0] := by
  have hm : main script_os argv_two (List.replicate 1024 0) 8
      (Sys.start world_second_open_fails)
      = some ((main script_os argv_two (List.replicate 1024 0) 8
          (Sys.start world_second_open_fails)).getD (0, Sys.start world_second_open_fails)) :=
    rfl
  have h := main_closes_each_handle_once script_os argv_two (List.replicate 1024 0) 8
    world_second_open_fails _ hm
  refine ⟨_, hm, rfl, ?_⟩
  exact h.2.2.2.2.1 rfl { dev_a with old_tty := cooked_tty } rfl rfl

theorem or_and_disjoint (x c m : Nat) (h : c &&& m = 0) : (x ||| c) &&& m = x &&& m := by
  apply Nat.eq_of_testBit_eq
  intro i
  have hi := congrArg (fun n => n.testBit i) h
  simp only [Nat.testBit_and, Nat.testBit_or, Nat.zero_testBit] at hi ⊢
  revert hi
  cases x.testBit i <;> cases c.testBit i <;> cases m.testBit i <;> simp

theorem clear_and_disjoint (x c m : Nat) (h : c &&& m = 0) (hm : m &&& 0xFFFFFFFF = m) :
    clear_bits x c &&& m = x &&& m := by
  apply Nat.eq_of_testBit_eq
  intro i
  have hi := congrArg (fun n => n.testBit i) h
  have hj := congrArg (fun n => n.testBit i) hm
  simp only [clear_bits, Nat.testBit_and, Nat.testBit_or, Nat.testBit_xor,
    Nat.zero_testBit] at hi hj ⊢
  revert hi hj
  cases x.testBit i <;> cases c.testBit i <;> cases m.testBit i <;>
    cases (0xFFFFFFFF : Nat).testBit i <;> simp

theorem or_and_cover (x c m : Nat) (h : c &&& m = m) : (x ||| c) &&& m = m := by
  apply Nat.eq_of_testBit_eq
  intro i
  have hi := congrArg (fun n => n.testBit i) h
  simp only [Nat.testBit_and, Nat.testBit_or] at hi ⊢
  revert hi
  cases x.testBit i <;> cases c.testBit i <;> cases m.testBit i <;> simp

theorem clear_and_cover (x c m : Nat) (h : c &&& m = m) (hm : m &&& 0xFFFFFFFF = m) :
    clear_bits x c &&& m = 0 := by
  apply Nat.eq_of_testBit_eq
  intro i
  have hi := congrArg (fun n => n.testBit i) h
  have hj := congrArg (fun n => n.testBit i) hm
  simp only [clear_bits, Nat.testBit_and, Nat.testBit_or, Nat.testBit_xor,
    Nat.zero_testBit] at hi hj ⊢
  revert hi hj
  cases x.testBit i <;> cases c.testBit i <;> cases m.testBit i <;>
    cases (0xFFFFFFFF : Nat).testBit i <;> simp

theorem or_and_distrib (x c m : Nat) : (x ||| c) &&& m = (x &&& m) ||| (c &&& m) := by
  apply Nat.eq_of_testBit_eq
  intro i
  simp only [Nat.testBit_and, Nat.testBit_or]
  cases x.testBit i <;> cases c.testBit i <;> cases m.testBit i <;> simp

theorem submask_disjoint (a p m : Nat) (ha : a &&& p = a) (h : p &&& m = 0) : a &&& m = 0 := by
  apply Nat.eq_of_testBit_eq
  intro i
  have hi := congrArg (fun n => n.testBit i) h
  have hj := congrArg (fun n => n.testBit i) ha
  simp only [Nat.testBit_and, Nat.zero_testBit] at hi hj ⊢
  revert hi hj
  cases a.testBit i <;> cases p.testBit i <;> cases m.testBit i <;> simp

theorem bitLocal_id : BitLocal (fun x => x) := fun _ => Or.inl (fun _ => rfl)

theorem bitLocal_or (c : Nat) : BitLocal (fun x => x ||| c) := by
  intro i
  cases hc : c.testBit i
  · left; intro x; simp [Nat.testBit_or, hc]
  · right; exact ⟨true, fun x => by simp [Nat.testBit_or, hc]⟩

theorem bitLocal_and (c : Nat) : BitLocal (fun x => x &&& c) := by
  intro i
  cases hc : c.testBit i
  · right; exact ⟨false, fun x => by simp [Nat.testBit_and, hc]⟩
  · left; intro x; simp [Nat.testBit_and, hc]

theorem bitLocal_clear (c : Nat) : BitLocal (fun x => clear_bits x c) :=
  bitLocal_and _

theorem bitLocal_comp {f g : Nat → Nat} (hf : BitLocal f) (hg : BitLocal g) :
    BitLocal (fun x => g (f x)) := by
  intro i
  rcases hg i with hg1 | ⟨b, hb⟩
  · rcases hf i with hf1 | ⟨b, hb⟩
    · left; intro x; rw [hg1, hf1]
    · right; exact ⟨b, fun x => by rw [hg1, hb]⟩
  · right; exact ⟨b, fun x => hb _⟩

theorem bitLocal_idem {f : Nat → Nat} (hf : BitLocal f) (x : Nat) : f (f x) = f x := by
  apply Nat.eq_of_testBit_eq
  intro i
  rcases hf i with h | ⟨b, hb⟩
  · rw [h]
  · rw [hb, hb]

theorem cflagLocal_comp {g1 g2 : Termios → Termios} (h1 : CflagLocal g1)
    (h2 : CflagLocal g2) : CflagLocal (fun t => g2 (g1 t)) := by
  obtain ⟨f1, hb1, he1⟩ := h1
  obtain ⟨f2, hb2, he2⟩ := h2
  exact ⟨fun x => f2 (f1 x), bitLocal_comp hb1 hb2, fun t => by rw [he2, he1]⟩

theorem cflagLocal_idem {g : Termios → Termios} (h : CflagLocal g) (t : Termios) :
    (g (g t)).c_cflag = (g t).c_cflag := by
  obtain ⟨f, hb, he⟩ := h
  rw [he, he, bitLocal_idem hb]

/-! ## Lemmas on `serial_setparams` -/

theorem baud_to_spd_table (b : Int) (s : Nat) (h : (b, s) ∈ baud_table) :
    baud_to_spd b = (s : Int) ∧ s &&& CBAUD = s ∧ s ≠ 0 ∧ ∀ t, set_speed t b = with_speed t s := by
  simp only [baud_table, List.mem_cons, Prod.mk.injEq, List.mem_singleton, List.not_mem_nil,
    or_false] at h
  rcases h with h | h | h | h | h | h | h | h | h | h | h | h | h | h | h | h <;>
    (obtain ⟨rfl, rfl⟩ := h; exact ⟨rfl, by decide, by decide, fun t => rfl⟩)

theorem baud_to_spd_other (b : Int) (h : b ∉ baud_table.map Prod.fst) :
    baud_to_spd b = -1 ∧ ∀ t, set_speed t b = t := by
  simp only [baud_table, List.map_cons, List.map_nil, List.mem_cons, List.mem_singleton,
    List.not_mem_nil, or_false, not_or] at h
  obtain ⟨h1, h2, h3, h4, h5, h6, h7, h8, h9, h10, h11, h12, h13, h14, h15, h16⟩ := h
  have hs : baud_to_spd b = -1 := by
    simp [baud_to_spd, h1, h2, h3, h4, h5, h6, h7, h8, h9, h10, h11, h12, h13, h14, h15, h16]
  exact ⟨hs, fun t => by simp [set_speed, hs]⟩

theorem set_speed_cases (b : Int) :
    (b ∉ baud_table.map Prod.fst ∧ ∀ t, set_speed t b = t)
    ∨ ∃ s : Nat, (b, s) ∈ baud_table ∧ s &&& CBAUD = s ∧ s ≠ 0
        ∧ ∀ t, set_speed t b = with_speed t s := by
  by_cases h : b ∈ baud_table.map Prod.fst
  · right
    simp only [List.mem_map, Prod.exists, exists_and_right, exists_eq_right] at h
    obtain ⟨s, hs⟩ := h
    exact ⟨s, hs, (baud_to_spd_table b s hs).2⟩
  · left
    exact ⟨h, (baud_to_spd_other b h).2⟩

theorem Termios.ext_fields {a b : Termios} (h1 : a.c_iflag = b.c_iflag)
    (h2 : a.c_oflag = b.c_oflag) (h3 : a.c_cflag = b.c_cflag) (h4 : a.c_lflag = b.c_lflag)
    (h5 : a.c_line = b.c_line) (h6 : a.c_cc = b.c_cc) (h7 : a.c_ispeed = b.c_ispeed)
    (h8 : a.c_ospeed = b.c_ospeed) : a = b := by
  cases a; cases b; simp_all

theorem set_databits_frame (t : Termios) (d : Int) :
    ∃ c, set_databits t d = { t with c_cflag := c } := by
  unfold set_databits; split_ifs <;> exact ⟨_, rfl⟩

theorem set_parity_frame (t : Termios) (p : Char) :
    ∃ c, set_parity t p = { t with c_cflag := c } := by
  unfold set_parity; simp only []; split_ifs <;> exact ⟨_, rfl⟩

theorem set_stopbits_frame (t : Termios) (s : Int) :
    ∃ c, set_stopbits t s = { t with c_cflag := c } := by
  unfold set_stopbits; split_ifs <;> exact ⟨_, rfl⟩

theorem set_hwflow_frame (t : Termios) (h : Int) :
    ∃ c, set_hwflow t h = { t with c_cflag := c } := by
  unfold set_hwflow; split_ifs <;> exact ⟨_, rfl⟩

theorem set_raw_iflag (t : Termios) : (set_raw t).c_iflag = IGNBRK := by
  show clear_bits IGNBRK (IXON ||| IXOFF ||| IXANY) = IGNBRK
  decide

theorem setparams_tty_frame (t : Termios) (b : Int) (p : Char) (d s h : Int) :
    setparams_tty t b p d s h
      = { c_iflag := IGNBRK, c_oflag := 0,
          c_cflag := (setparams_tty t b p d s h).c_cflag, c_lflag := 0,
          c_line := (set_speed t b).c_line,
          c_cc := Function.update (Function.update (set_speed t b).c_cc VMIN 1) VTIME 5,
          c_ispeed := (set_speed t b).c_ispeed, c_ospeed := (set_speed t b).c_ospeed } := by
  obtain ⟨c0, e0⟩ := set_databits_frame (set_speed t b) d
  obtain ⟨c1, e1⟩ := set_parity_frame (set_raw (set_databits (set_speed t b) d)) p
  obtain ⟨c2, e2⟩ := set_stopbits_frame
    (set_parity (set_raw (set_databits (set_speed t b) d)) p) s
  obtain ⟨c3, e3⟩ := set_hwflow_frame
    (set_stopbits (set_parity (set_raw (set_databits (set_speed t b) d)) p) s) h
  have e : setparams_tty t b p d s h
      = { set_raw (set_speed t b) with c_cflag := c3 } := by
    unfold setparams_tty
    rw [e3, e2, e1, e0]
    rfl
  have hc : (setparams_tty t b p d s h).c_cflag = c3 := by rw [e]
  rw [hc]
  rw [e]
  apply Termios.ext_fields
  · exact set_raw_iflag _
  all_goals rfl

theorem cflagLocal_speed (b : Int) : CflagLocal (fun t => set_speed t b) := by
  rcases set_speed_cases b with ⟨-, h⟩ | ⟨s, -, -, -, h⟩
  · exact ⟨fun x => x, bitLocal_id, fun t => by
      show (set_speed t b).c_cflag = t.c_cflag
      rw [h]⟩
  · exact ⟨fun x => clear_bits (clear_bits x (CBAUD ||| CBAUDEX) ||| s) (CBAUD ||| CBAUDEX) ||| s,
      bitLocal_comp (bitLocal_comp (bitLocal_comp (bitLocal_clear _) (bitLocal_or _))
        (bitLocal_clear _)) (bitLocal_or _),
      fun t => by
        show (set_speed t b).c_cflag = _
        rw [h]
        rfl⟩

theorem cflagLocal_databits (d : Int) : CflagLocal (fun t => set_databits t d) := by
  by_cases h5 : d = 5
  · exact ⟨fun x => clear_bits x CSIZE ||| CS5, bitLocal_comp (bitLocal_clear _) (bitLocal_or _),
      fun t => by simp [set_databits, h5]⟩
  by_cases h6 : d = 6
  · exact ⟨fun x => clear_bits x CSIZE ||| CS6, bitLocal_comp (bitLocal_clear _) (bitLocal_or _),
      fun t => by simp [set_databits, h6]⟩
  by_cases h7 : d = 7
  · exact ⟨fun x => clear_bits x CSIZE ||| CS7, bitLocal_comp (bitLocal_clear _) (bitLocal_or _),
      fun t => by simp [set_databits, h7]⟩
  by_cases h8 : d = 8
  · exact ⟨fun x => clear_bits x CSIZE ||| CS8, bitLocal_comp (bitLocal_clear _) (bitLocal_or _),
      fun t => by simp [set_databits, h8]⟩
  · exact ⟨fun x => x, bitLocal_id, fun t => by simp [set_databits, h5, h6, h7, h8]⟩

theorem cflagLocal_raw : CflagLocal set_raw :=
  ⟨fun x => x ||| (CLOCAL ||| CREAD), bitLocal_or _, fun _ => rfl⟩

theorem cflagLocal_parity (p : Char) : CflagLocal (fun t => set_parity t p) := by
  have hc : BitLocal (fun x => clear_bits (clear_bits x (PARENB ||| PARODD)) CMSPAR) :=
    bitLocal_comp (bitLocal_clear _) (bitLocal_clear _)
  by_cases he : p = 'e' ∨ p = 'E'
  · exact ⟨_, bitLocal_comp hc (bitLocal_or PARENB), fun t => by simp only [set_parity, he, if_true]⟩
  by_cases ho : p = 'o' ∨ p = 'O'
  · exact ⟨_, bitLocal_comp hc (bitLocal_or (PARENB ||| PARODD)),
      fun t => by simp only [set_parity, he, ho, if_true, if_false]⟩
  by_cases hs : p = 's' ∨ p = 'S'
  · exact ⟨_, bitLocal_comp hc (bitLocal_or (PARENB ||| CMSPAR)),
      fun t => by simp only [set_parity, he, ho, hs, if_true, if_false]⟩
  by_cases hm : p = 'm' ∨ p = 'M'
  · exact ⟨_, bitLocal_comp hc (bitLocal_or (PARENB ||| PARODD ||| CMSPAR)),
      fun t => by simp only [set_parity, he, ho, hs, hm, if_true, if_false]⟩
  · exact ⟨_, hc, fun t => by simp only [set_parity, he, ho, hs, hm, if_false]⟩

theorem cflagLocal_stopbits (s : Int) : CflagLocal (fun t => set_stopbits t s) := by
  by_cases h : s = 2
  · exact ⟨_, bitLocal_or CSTOPB, fun t => by simp only [set_stopbits, h, if_true]⟩
  · exact ⟨_, bitLocal_clear CSTOPB, fun t => by simp only [set_stopbits, h, if_false]⟩

theorem cflagLocal_hwflow (h : Int) : CflagLocal (fun t => set_hwflow t h) := by
  by_cases hh : h ≠ 0
  · exact ⟨_, bitLocal_or CRTSCTS, fun t => by
      show (set_hwflow t h).c_cflag = _
      unfold set_hwflow
      rw [if_pos hh]⟩
  · exact ⟨_, bitLocal_clear CRTSCTS, fun t => by
      show (set_hwflow t h).c_cflag = _
      unfold set_hwflow
      rw [if_neg hh]⟩

theorem cflagLocal_setparams (b : Int) (p : Char) (d s h : Int) :
    CflagLocal (fun t => setparams_tty t b p d s h) :=
  cflagLocal_comp (cflagLocal_comp (cflagLocal_comp (cflagLocal_comp (cflagLocal_comp
    (cflagLocal_speed b) (cflagLocal_databits d)) cflagLocal_raw) (cflagLocal_parity p))
    (cflagLocal_stopbits s)) (cflagLocal_hwflow h)

theorem set_speed_idem (t : Termios) (b : Int) (p : Char) (d s h : Int) :
    (set_speed (setparams_tty t b p d s h) b).c_line = (set_speed t b).c_line
    ∧ (set_speed (setparams_tty t b p d s h) b).c_cc = (setparams_tty t b p d s h).c_cc
    ∧ (set_speed (setparams_tty t b p d s h) b).c_ispeed = (set_speed t b).c_ispeed
    ∧ (set_speed (setparams_tty t b p d s h) b).c_ospeed = (set_speed t b).c_ospeed := by
  rcases set_speed_cases b with ⟨-, hb⟩ | ⟨v, -, -, -, hb⟩
  · rw [hb, hb]
    rw [setparams_tty_frame, hb]
    exact ⟨rfl, rfl, rfl, rfl⟩
  · rw [hb, hb]
    rw [setparams_tty_frame, hb]
    exact ⟨rfl, rfl, rfl, rfl⟩

theorem update_twice (cc : Fin 32 → Nat) :
    Function.update (Function.update
      (Function.update (Function.update cc VMIN 1) VTIME 5) VMIN 1) VTIME 5
      = Function.update (Function.update cc VMIN 1) VTIME 5 := by
  funext j
  simp only [Function.update_apply]
  split_ifs <;> rfl

theorem setparams_tty_idem (t : Termios) (b : Int) (p : Char) (d s h : Int) :
    setparams_tty (setparams_tty t b p d s h) b p d s h = setparams_tty t b p d s h := by
  have hs := set_speed_idem t b p d s h
  rw [setparams_tty_frame (setparams_tty t b p d s h)]
  conv_rhs => rw [setparams_tty_frame t]
  rw [cflagLocal_idem (cflagLocal_setparams b p d s h) t, hs.1, hs.2.1, hs.2.2.1, hs.2.2.2]
  apply Termios.ext_fields <;> try rfl
  show Function.update (Function.update (setparams_tty t b p d s h).c_cc VMIN 1) VTIME 5
    = Function.update (Function.update (set_speed t b).c_cc VMIN 1) VTIME 5
  rw [setparams_tty_frame t]
  exact update_twice _

theorem set_hwflow_keeps (t : Termios) (h : Int) (m : Nat) (hd : CRTSCTS &&& m = 0)
    (hm : m &&& 0xFFFFFFFF = m) : (set_hwflow t h).c_cflag &&& m = t.c_cflag &&& m := by
  unfold set_hwflow
  split_ifs
  · exact or_and_disjoint _ _ _ hd
  · exact clear_and_disjoint _ _ _ hd hm

theorem set_stopbits_keeps (t : Termios) (s : Int) (m : Nat) (hd : CSTOPB &&& m = 0)
    (hm : m &&& 0xFFFFFFFF = m) : (set_stopbits t s).c_cflag &&& m = t.c_cflag &&& m := by
  unfold set_stopbits
  split_ifs
  · exact or_and_disjoint _ _ _ hd
  · exact clear_and_disjoint _ _ _ hd hm

theorem set_parity_keeps (t : Termios) (p : Char) (m : Nat) (hd : PARITY_BITS &&& m = 0)
    (hm : m &&& 0xFFFFFFFF = m) : (set_parity t p).c_cflag &&& m = t.c_cflag &&& m := by
  have h1 : (PARENB ||| PARODD) &&& m = 0 := submask_disjoint _ _ _ (by decide) hd
  have h2 : CMSPAR &&& m = 0 := submask_disjoint _ _ _ (by decide) hd
  have h3 : PARENB &&& m = 0 := submask_disjoint _ _ _ (by decide) hd
  have h4 : (PARENB ||| CMSPAR) &&& m = 0 := submask_disjoint _ _ _ (by decide) hd
  have hc : ∀ x, clear_bits (clear_bits x (PARENB ||| PARODD)) CMSPAR &&& m = x &&& m := by
    intro x
    rw [clear_and_disjoint _ _ _ h2 hm, clear_and_disjoint _ _ _ h1 hm]
  unfold set_parity
  simp only []
  split_ifs
  · exact (or_and_disjoint _ _ _ h3).trans (hc _)
  · exact (or_and_disjoint _ _ _ h1).trans (hc _)
  · exact (or_and_disjoint _ _ _ h4).trans (hc _)
  · exact (or_and_disjoint _ _ _ hd).trans (hc _)
  · exact hc _

theorem set_raw_keeps (t : Termios) (m : Nat) (hd : (CLOCAL ||| CREAD) &&& m = 0) :
    (set_raw t).c_cflag &&& m = t.c_cflag &&& m :=
  or_and_disjoint _ _ _ hd

theorem set_databits_keeps (t : Termios) (d : Int) (m : Nat) (hd : CSIZE &&& m = 0)
    (hm : m &&& 0xFFFFFFFF = m) : (set_databits t d).c_cflag &&& m = t.c_cflag &&& m := by
  have hc : ∀ x v, v &&& CSIZE = v → (clear_bits x CSIZE ||| v) &&& m = x &&& m := by
    intro x v hv
    rw [or_and_disjoint _ _ _ (submask_disjoint _ _ _ hv hd), clear_and_disjoint _ _ _ hd hm]
  unfold set_databits
  split_ifs
  · exact hc _ _ (by decide)
  · exact hc _ _ (by decide)
  · exact hc _ _ (by decide)
  · exact hc _ _ (by decide)
  · rfl

theorem set_speed_keeps (t : Termios) (b : Int) (m : Nat) (hd : CBAUD &&& m = 0)
    (hm : m &&& 0xFFFFFFFF = m) : (set_speed t b).c_cflag &&& m = t.c_cflag &&& m := by
  rcases set_speed_cases b with ⟨-, hb⟩ | ⟨v, -, hv, -, hb⟩
  · rw [hb]
  · rw [hb]
    have hvm : v &&& m = 0 := submask_disjoint _ _ _ hv hd
    have hk : (CBAUD ||| CBAUDEX) &&& m = 0 := by
      have : CBAUD ||| CBAUDEX = CBAUD := by decide
      rw [this]; exact hd
    show (clear_bits (clear_bits t.c_cflag (CBAUD ||| CBAUDEX) ||| v) (CBAUD ||| CBAUDEX)
      ||| v) &&& m = _
    rw [or_and_disjoint _ _ _ hvm, clear_and_disjoint _ _ _ hk hm, or_and_disjoint _ _ _ hvm,
      clear_and_disjoint _ _ _ hk hm]

theorem clear_or_and (x c v m : Nat) (hc : c &&& m = m) (hm : m &&& 0xFFFFFFFF = m) :
    (clear_bits x c ||| v) &&& m = v &&& m := by
  rw [or_and_distrib, clear_and_cover _ _ _ hc hm, Nat.zero_or]

/-- The steps of `serial_setparams` after the speed keep the bits of `m` in
`c_cflag`, when `m` meets none of the bits those steps write. -/
theorem after_speed_keeps (u : Termios) (p : Char) (d s h : Int) (m : Nat)
    (h1 : CSIZE &&& m = 0) (h2 : (CLOCAL ||| CREAD) &&& m = 0) (h3 : PARITY_BITS &&& m = 0)
    (h4 : CSTOPB &&& m = 0) (h5 : CRTSCTS &&& m = 0) (hm : m &&& 0xFFFFFFFF = m) :
    (set_hwflow (set_stopbits (set_parity (set_raw (set_databits u d)) p) s) h).c_cflag &&& m
      = u.c_cflag &&& m := by
  rw [set_hwflow_keeps _ _ _ h5 hm, set_stopbits_keeps _ _ _ h4 hm,
    set_parity_keeps _ _ _ h3 hm, set_raw_keeps _ _ h2, set_databits_keeps _ _ _ h1 hm]

theorem clear2_and_cover (x a b m : Nat) (hc : (a ||| b) &&& m = m)
    (hm : m &&& 0xFFFFFFFF = m) : clear_bits (clear_bits x a) b &&& m = 0 := by
  apply Nat.eq_of_testBit_eq
  intro i
  have hi := congrArg (fun n => n.testBit i) hc
  have hj := congrArg (fun n => n.testBit i) hm
  simp only [clear_bits, Nat.testBit_and, Nat.testBit_or, Nat.testBit_xor,
    Nat.zero_testBit] at hi hj ⊢
  revert hi hj
  cases x.testBit i <;> cases a.testBit i <;> cases b.testBit i <;> cases m.testBit i <;>
    cases (0xFFFFFFFF : Nat).testBit i <;> simp

theorem set_parity_value (t : Termios) (p : Char) :
    (set_parity t p).c_cflag &&& PARITY_BITS
      = if p = 'e' ∨ p = 'E' then PARENB
        else if p = 'o' ∨ p = 'O' then PARENB ||| PARODD
        else if p = 's' ∨ p = 'S' then PARENB ||| CMSPAR
        else if p = 'm' ∨ p = 'M' then PARENB ||| PARODD ||| CMSPAR
        else 0 := by
  have hc : ∀ x, clear_bits (clear_bits x (PARENB ||| PARODD)) CMSPAR &&& PARITY_BITS = 0 :=
    fun x => clear2_and_cover _ _ _ _ (by decide) (by decide)
  have hv : ∀ x v, v &&& PARITY_BITS = v →
      (clear_bits (clear_bits x (PARENB ||| PARODD)) CMSPAR ||| v) &&& PARITY_BITS = v := by
    intro x v h
    rw [or_and_distrib, hc, Nat.zero_or, h]
  unfold set_parity
  simp only []
  split_ifs
  · exact hv _ _ (by decide)
  · exact hv _ _ (by decide)
  · exact hv _ _ (by decide)
  · exact hv _ _ (by decide)
  · exact hc _

theorem setparams_tty_parity (t : Termios) (b : Int) (p : Char) (d s h : Int) :
    (setparams_tty t b p d s h).c_cflag &&& PARITY_BITS
      = (set_parity (set_raw (set_databits (set_speed t b) d)) p).c_cflag &&& PARITY_BITS := by
  unfold setparams_tty
  rw [set_hwflow_keeps _ _ _ (by decide) (by decide),
    set_stopbits_keeps _ _ _ (by decide) (by decide)]

theorem setparams_tty_csize (t : Termios) (b : Int) (p : Char) (d s h : Int) :
    (setparams_tty t b p d s h).c_cflag &&& CSIZE
      = (set_databits (set_speed t b) d).c_cflag &&& CSIZE := by
  unfold setparams_tty
  rw [set_hwflow_keeps _ _ _ (by decide) (by decide),
    set_stopbits_keeps _ _ _ (by decide) (by decide),
    set_parity_keeps _ _ _ (by decide) (by decide), set_raw_keeps _ _ (by decide)]

theorem setparams_tty_speed_bits (t : Termios) (b : Int) (p : Char) (d s h : Int) :
    (setparams_tty t b p d s h).c_cflag &&& (CBAUD ||| CBAUDEX)
      = (set_speed t b).c_cflag &&& (CBAUD ||| CBAUDEX) :=
  after_speed_keeps _ p d s h _ (by decide) (by decide) (by decide) (by decide) (by decide)
    (by decide)

theorem with_speed_bits (t : Termios) (v : Nat) (hv : v &&& CBAUD = v) :
    (with_speed t v).c_cflag &&& (CBAUD ||| CBAUDEX) = v := by
  have hk : CBAUD ||| CBAUDEX = CBAUD := by decide
  show (clear_bits (clear_bits t.c_cflag (CBAUD ||| CBAUDEX) ||| v) (CBAUD ||| CBAUDEX)
    ||| v) &&& (CBAUD ||| CBAUDEX) = v
  rw [clear_or_and _ _ _ _ (by decide) (by decide), hk, hv]

theorem setparams_tty_stop (t : Termios) (b : Int) (p : Char) (d s h : Int) :
    (setparams_tty t b p d s h).c_cflag &&& CSTOPB = if s = 2 then CSTOPB else 0 := by
  unfold setparams_tty
  rw [set_hwflow_keeps _ _ _ (by decide) (by decide)]
  unfold set_stopbits
  split_ifs
  · exact or_and_cover _ _ _ (by decide)
  · exact clear_and_cover _ _ _ (by decide) (by decide)

theorem setparams_tty_hw (t : Termios) (b : Int) (p : Char) (d s h : Int) :
    (setparams_tty t b p d s h).c_cflag &&& CRTSCTS = if h ≠ 0 then CRTSCTS else 0 := by
  unfold setparams_tty set_hwflow
  split_ifs
  · exact or_and_cover _ _ _ (by decide)
  · exact clear_and_cover _ _ _ (by decide) (by decide)

theorem setparams_tty_local (t : Termios) (b : Int) (p : Char) (d s h : Int) :
    (setparams_tty t b p d s h).c_cflag &&& (CLOCAL ||| CREAD) = CLOCAL ||| CREAD := by
  unfold setparams_tty
  rw [set_hwflow_keeps _ _ _ (by decide) (by decide),
    set_stopbits_keeps _ _ _ (by decide) (by decide),
    set_parity_keeps _ _ _ (by decide) (by decide)]
  exact or_and_cover _ _ _ (by decide)

theorem set_databits_value (t : Termios) (d : Int) :
    (set_databits t d).c_cflag &&& CSIZE
      = if d = 5 then CS5 else if d = 6 then CS6 else if d = 7 then CS7
        else if d = 8 then CS8 else t.c_cflag &&& CSIZE := by
  have hv : ∀ x v, v &&& CSIZE = v → (clear_bits x CSIZE ||| v) &&& CSIZE = v := by
    intro x v h
    rw [clear_or_and _ _ _ _ (by decide) (by decide), h]
  unfold set_databits
  split_ifs
  · exact hv _ _ (by decide)
  · exact hv _ _ (by decide)
  · exact hv _ _ (by decide)
  · exact hv _ _ (by decide)
  · rfl

/-! ## The configuration that `serial_setparams` builds (C11 to C16) -/

theorem serial_setparams_tty {σ : Type} (os : OS σ) (sd : serial_data) (b : Int) (p : Char)
    (d s h : Int) (st : Sys σ) :
    (serial_setparams os sd b p d s h st).1.tty = setparams_tty sd.tty b p d s h := rfl

/-- C11: applying `serial_setparams` a second time with the same arguments
returns the handle unchanged, so the working configuration (all flag words,
`c_cc` and the speeds) is the one the first call built, and the second call
applies that same configuration to the device. -/
theorem serial_setparams_idempotent {σ : Type} (os : OS σ) (sd : serial_data) (b : Int)
    (p : Char) (d s h : Int) (st st1 : Sys σ) :
    (serial_setparams os (serial_setparams os sd b p d s h st).1 b p d s h st1).1
      = (serial_setparams os sd b p d s h st).1
    ∧ (serial_setparams os (serial_setparams os sd b p d s h st).1 b p d s h st1).1.tty
      = (serial_setparams os sd b p d s h st).1.tty
    ∧ (serial_setparams os sd b p d s h st).2.trace
      = st.trace ++ [Event.tcflush sd.fd TCIOFLUSH,
          Event.tcsetattr sd.fd TCSANOW (serial_setparams os sd b p d s h st).1.tty]
    ∧ (serial_setparams os (serial_setparams os sd b p d s h st).1 b p d s h st1).2.trace
      = st1.trace ++ [Event.tcflush sd.fd TCIOFLUSH,
          Event.tcsetattr sd.fd TCSANOW (serial_setparams os sd b p d s h st).1.tty] := by
  have ht : (serial_setparams os (serial_setparams os sd b p d s h st).1 b p d s h st1).1.tty
      = (serial_setparams os sd b p d s h st).1.tty := by
    rw [serial_setparams_tty, serial_setparams_tty]
    exact setparams_tty_idem _ _ _ _ _ _
  refine ⟨?_, ht, ?_, ?_⟩
  · have e : (serial_setparams os (serial_setparams os sd b p d s h st).1 b p d s h st1).1
        = { (serial_setparams os sd b p d s h st).1 with
            tty := (serial_setparams os (serial_setparams os sd b p d s h st).1
              b p d s h st1).1.tty } := rfl
    rw [e, ht]
  · simp [serial_setparams, Sys.emit, Sys.setWorld]
  · have e : (serial_setparams os (serial_setparams os sd b p d s h st).1 b p d s h st1).2.trace
        = st1.trace ++ [Event.tcflush sd.fd TCIOFLUSH, Event.tcsetattr sd.fd TCSANOW
            (serial_setparams os (serial_setparams os sd b p d s h st).1
              b p d s h st1).1.tty] := by
      simp [serial_setparams, Sys.emit, Sys.setWorld]
    rw [e, ht]

/-- C12: for a baud value of the lookup table, after `serial_setparams` the
input speed and the output speed of the working configuration (as
`cfgetispeed` and `cfgetospeed` read them, and the fields `c_ispeed` and
`c_ospeed`) are the matching constant.  For a baud value outside the table
the output speed and both fields are what they were before the call, and so
is the input speed when the prior configuration does not carry the mark
`IBAUD0`, which no working configuration of the program carries.  The call
issues `tcflush` and `tcsetattr` and prints nothing. -/
theorem serial_setparams_speed {σ : Type} (os : OS σ) (sd : serial_data) (b : Int)
    (p : Char) (d s h : Int) (st : Sys σ) :
    (∀ v, (b, v) ∈ baud_table →
      cfgetispeed (serial_setparams os sd b p d s h st).1.tty = v
      ∧ cfgetospeed (serial_setparams os sd b p d s h st).1.tty = v
      ∧ (serial_setparams os sd b p d s h st).1.tty.c_ispeed = v
      ∧ (serial_setparams os sd b p d s h st).1.tty.c_ospeed = v)
    ∧ (b ∉ baud_table.map Prod.fst →
      cfgetospeed (serial_setparams os sd b p d s h st).1.tty = cfgetospeed sd.tty
      ∧ (serial_setparams os sd b p d s h st).1.tty.c_ispeed = sd.tty.c_ispeed
      ∧ (serial_setparams os sd b p d s h st).1.tty.c_ospeed = sd.tty.c_ospeed
      ∧ (sd.tty.c_iflag &&& IBAUD0 = 0 →
          cfgetispeed (serial_setparams os sd b p d s h st).1.tty = cfgetispeed sd.tty))
    ∧ (serial_setparams os sd b p d s h st).1.tty.c_iflag &&& IBAUD0 = 0
    ∧ Termios.zero.c_iflag &&& IBAUD0 = 0
    ∧ (serial_setparams os sd b p d s h st).2.trace
      = st.trace ++ [Event.tcflush sd.fd TCIOFLUSH,
          Event.tcsetattr sd.fd TCSANOW (serial_setparams os sd b p d s h st).1.tty] := by
  have hfr := setparams_tty_frame sd.tty b p d s h
  have hi : (setparams_tty sd.tty b p d s h).c_iflag = IGNBRK := by rw [hfr]
  have hmark : (setparams_tty sd.tty b p d s h).c_iflag &&& IBAUD0 = 0 := by
    rw [hi]; decide
  have hin : cfgetispeed (setparams_tty sd.tty b p d s h)
      = (setparams_tty sd.tty b p d s h).c_cflag &&& (CBAUD ||| CBAUDEX) := by
    simp [cfgetispeed, hmark]
  have hsp := setparams_tty_speed_bits sd.tty b p d s h
  have h1 : (setparams_tty sd.tty b p d s h).c_ispeed = (set_speed sd.tty b).c_ispeed := by
    rw [hfr]
  have h2 : (setparams_tty sd.tty b p d s h).c_ospeed = (set_speed sd.tty b).c_ospeed := by
    rw [hfr]
  simp only [serial_setparams_tty]
  refine ⟨?_, ?_, hmark, by decide, ?_⟩
  · intro v hv
    obtain ⟨-, hvk, -, hset⟩ := baud_to_spd_table b v hv
    have hbits : (setparams_tty sd.tty b p d s h).c_cflag &&& (CBAUD ||| CBAUDEX) = v := by
      rw [hsp, hset, with_speed_bits _ _ hvk]
    refine ⟨by rw [hin, hbits], hbits, ?_, ?_⟩
    · rw [h1, hset]; rfl
    · rw [h2, hset]; rfl
  · intro hb
    obtain ⟨-, hset⟩ := baud_to_spd_other b hb
    have hbits : (setparams_tty sd.tty b p d s h).c_cflag &&& (CBAUD ||| CBAUDEX)
        = sd.tty.c_cflag &&& (CBAUD ||| CBAUDEX) := by
      rw [hsp, hset]
    refine ⟨hbits, by rw [h1, hset], by rw [h2, hset], ?_⟩
    intro h0
    rw [hin, hbits]
    simp [cfgetispeed, h0]
  · simp [serial_setparams, Sys.emit, Sys.setWorld]

/-- Witness for C12: on a configuration at 38400 baud, the baud value 115200
sets both speeds to `B115200`, and the baud value 9600, which is not in the
table, leaves both speeds at `B38400`. -/
theorem serial_setparams_speed_witness :
    (cfgetispeed (serial_setparams script_os dev_cooked 115200 'n' 8 1 0
        (Sys.start Script.init)).1.tty = B115200
      ∧ cfgetospeed (serial_setparams script_os dev_cooked 115200 'n' 8 1 0
        (Sys.start Script.init)).1.tty = B115200)
    ∧ (cfgetispeed (serial_setparams script_os dev_cooked 9600 'n' 8 1 0
        (Sys.start Script.init)).1.tty = B38400
      ∧ cfgetospeed (serial_setparams script_os dev_cooked 9600 'n' 8 1 0
        (Sys.start Script.init)).1.tty = B38400) := by
  have h1 := (serial_setparams_speed script_os dev_cooked 115200 'n' 8 1 0
    (Sys.start Script.init)).1 B115200 (by decide)
  have h2 := (serial_setparams_speed script_os dev_cooked 9600 'n' 8 1 0
    (Sys.start Script.init)).2.1 (by decide)
  exact ⟨⟨h1.1, h1.2.1⟩, ⟨(h2.2.2.2 (by decide)).trans (by decide), h2.1.trans (by decide)⟩⟩

/-- C13: after `serial_setparams` the three parity bits of `c_cflag` are:
none set for `n` and `N`; `PARENB` alone for `e` and `E`; `PARENB` and
`PARODD` for `o` and `O`; `PARENB` and `CMSPAR` for `s` and `S`; all three
for `m` and `M`; and none set for every other character. -/
theorem serial_setparams_parity {σ : Type} (os : OS σ) (sd : serial_data) (b : Int)
    (p : Char) (d s h : Int) (st : Sys σ) :
    (p = 'n' ∨ p = 'N' →
      (serial_setparams os sd b p d s h st).1.tty.c_cflag &&& PARITY_BITS = 0)
    ∧ (p = 'e' ∨ p = 'E' →
      (serial_setparams os sd b p d s h st).1.tty.c_cflag &&& PARITY_BITS = PARENB)
    ∧ (p = 'o' ∨ p = 'O' →
      (serial_setparams os sd b p d s h st).1.tty.c_cflag &&& PARITY_BITS
        = PARENB ||| PARODD)
    ∧ (p = 's' ∨ p = 'S' →
      (serial_setparams os sd b p d s h st).1.tty.c_cflag &&& PARITY_BITS
        = PARENB ||| CMSPAR)
    ∧ (p = 'm' ∨ p = 'M' →
      (serial_setparams os sd b p d s h st).1.tty.c_cflag &&& PARITY_BITS
        = PARENB ||| PARODD ||| CMSPAR)
    ∧ (p ∉ ['e', 'E', 'o', 'O', 's', 'S', 'm', 'M'] →
      (serial_setparams os sd b p d s h st).1.tty.c_cflag &&& PARITY_BITS = 0) := by
  have hv : (serial_setparams os sd b p d s h st).1.tty.c_cflag &&& PARITY_BITS
      = if p = 'e' ∨ p = 'E' then PARENB
        else if p = 'o' ∨ p = 'O' then PARENB ||| PARODD
        else if p = 's' ∨ p = 'S' then PARENB ||| CMSPAR
        else if p = 'm' ∨ p = 'M' then PARENB ||| PARODD ||| CMSPAR
        else 0 := by
    rw [serial_setparams_tty, setparams_tty_parity, set_parity_value]
  rw [hv]
  refine ⟨?_, ?_, ?_, ?_, ?_, ?_⟩
  · rintro (rfl | rfl) <;> decide
  · rintro (rfl | rfl) <;> decide
  · rintro (rfl | rfl) <;> decide
  · rintro (rfl | rfl) <;> decide
  · rintro (rfl | rfl) <;> decide
  · intro hp
    simp only [List.mem_cons, List.mem_singleton, List.not_mem_nil, or_false, not_or] at hp
    obtain ⟨h1, h2, h3, h4, h5, h6, h7, h8⟩ := hp
    simp [h1, h2, h3, h4, h5, h6, h7, h8]

/-- Witness for C13: on a configuration that has `PARENB` and `PARODD` set,
parity `s` leaves `PARENB` and `CMSPAR` set and `PARODD` clear, and the
unrecognised parity `x` leaves no parity bit set. -/
theorem serial_setparams_parity_witness :
    (serial_setparams script_os { dev_a with tty := { cooked_tty with c_cflag := 0o1777 } }
        115200 's' 8 1 0 (Sys.start Script.init)).1.tty.c_cflag &&& PARITY_BITS
      = PARENB ||| CMSPAR
    ∧ (serial_setparams script_os { dev_a with tty := { cooked_tty with c_cflag := 0o1777 } }
        115200 'x' 8 1 0 (Sys.start Script.init)).1.tty.c_cflag &&& PARITY_BITS = 0 := by
  exact ⟨(serial_setparams_parity script_os
      { dev_a with tty := { cooked_tty with c_cflag := 0o1777 } } 115200 's' 8 1 0
      (Sys.start Script.init)).2.2.2.1 (Or.inl rfl),
    (serial_setparams_parity script_os
      { dev_a with tty := { cooked_tty with c_cflag := 0o1777 } } 115200 'x' 8 1 0
      (Sys.start Script.init)).2.2.2.2.2 (by decide)⟩

/-- C14: after `serial_setparams` the working configuration is in raw mode
with the fixed read policy: `c_lflag` and `c_oflag` are 0, `c_iflag` is
`IGNBRK` and so has no other bit set (`IXON`, `IXOFF` and `IXANY` are
clear), `CLOCAL` and `CREAD` are set in `c_cflag`, `c_cc[VMIN]` is 1 and
`c_cc[VTIME]` is 5. -/
theorem serial_setparams_raw {σ : Type} (os : OS σ) (sd : serial_data) (b : Int)
    (p : Char) (d s h : Int) (st : Sys σ) :
    (serial_setparams os sd b p d s h st).1.tty.c_lflag = 0
    ∧ (serial_setparams os sd b p d s h st).1.tty.c_oflag = 0
    ∧ (serial_setparams os sd b p d s h st).1.tty.c_iflag = IGNBRK
    ∧ clear_bits (serial_setparams os sd b p d s h st).1.tty.c_iflag IGNBRK = 0
    ∧ (serial_setparams os sd b p d s h st).1.tty.c_iflag &&& (IXON ||| IXOFF ||| IXANY) = 0
    ∧ (serial_setparams os sd b p d s h st).1.tty.c_cflag &&& (CLOCAL ||| CREAD)
      = CLOCAL ||| CREAD
    ∧ (serial_setparams os sd b p d s h st).1.tty.c_cc VMIN = 1
    ∧ (serial_setparams os sd b p d s h st).1.tty.c_cc VTIME = 5 := by
  have hfr := setparams_tty_frame sd.tty b p d s h
  have hi : (setparams_tty sd.tty b p d s h).c_iflag = IGNBRK := by rw [hfr]
  have hcc : (setparams_tty sd.tty b p d s h).c_cc
      = Function.update (Function.update (set_speed sd.tty b).c_cc VMIN 1) VTIME 5 := by
    rw [hfr]
  simp only [serial_setparams_tty]
  refine ⟨by rw [hfr], by rw [hfr], hi, by rw [hi]; decide, by rw [hi]; decide,
    setparams_tty_local _ _ _ _ _ _, ?_, ?_⟩
  · rw [hcc, Function.update_apply, if_neg (by decide), Function.update_apply, if_pos rfl]
  · rw [hcc, Function.update_apply, if_pos rfl]

/-- C15: after `serial_setparams` with data bits 5, 6, 7 or 8 the `CSIZE`
field of `c_cflag` is `CS5`, `CS6`, `CS7` or `CS8`; with any other value it
is what it was before the call. -/
theorem serial_setparams_databits {σ : Type} (os : OS σ) (sd : serial_data) (b : Int)
    (p : Char) (d s h : Int) (st : Sys σ) :
    (d = 5 → (serial_setparams os sd b p d s h st).1.tty.c_cflag &&& CSIZE = CS5)
    ∧ (d = 6 → (serial_setparams os sd b p d s h st).1.tty.c_cflag &&& CSIZE = CS6)
    ∧ (d = 7 → (serial_setparams os sd b p d s h st).1.tty.c_cflag &&& CSIZE = CS7)
    ∧ (d = 8 → (serial_setparams os sd b p d s h st).1.tty.c_cflag &&& CSIZE = CS8)
    ∧ (d ≠ 5 → d ≠ 6 → d ≠ 7 → d ≠ 8 →
        (serial_setparams os sd b p d s h st).1.tty.c_cflag &&& CSIZE
          = sd.tty.c_cflag &&& CSIZE) := by
  have hv : (serial_setparams os sd b p d s h st).1.tty.c_cflag &&& CSIZE
      = if d = 5 then CS5 else if d = 6 then CS6 else if d = 7 then CS7
        else if d = 8 then CS8 else sd.tty.c_cflag &&& CSIZE := by
    rw [serial_setparams_tty, setparams_tty_csize, set_databits_value,
      set_speed_keeps _ _ _ (by decide) (by decide)]
  rw [hv]
  refine ⟨?_, ?_, ?_, ?_, ?_⟩
  · rintro rfl; rfl
  · rintro rfl; rfl
  · rintro rfl; rfl
  · rintro rfl; rfl
  · intro h5 h6 h7 h8
    simp [h5, h6, h7, h8]

/-- Witness for C15: on a configuration with `CS8`, data bits 6 give `CS6`
and data bits 9 leave `CS8`. -/
theorem serial_setparams_databits_witness :
    (serial_setparams script_os dev_cooked 115200 'n' 6 1 0
        (Sys.start Script.init)).1.tty.c_cflag &&& CSIZE = CS6
    ∧ (serial_setparams script_os dev_cooked 115200 'n' 9 1 0
        (Sys.start Script.init)).1.tty.c_cflag &&& CSIZE = CS8 := by
  exact ⟨(serial_setparams_databits script_os dev_cooked 115200 'n' 6 1 0
      (Sys.start Script.init)).2.1 rfl,
    ((serial_setparams_databits script_os dev_cooked 115200 'n' 9 1 0
      (Sys.start Script.init)).2.2.2.2 (by decide) (by decide) (by decide)
        (by decide)).trans (by decide)⟩

/-- C16: after `serial_setparams` the bit `CSTOPB` of `c_cflag` is set
exactly when `stopbits` is 2, and the bit `CRTSCTS` is set exactly when
`hwflow` is not 0. -/
theorem serial_setparams_stop_flow {σ : Type} (os : OS σ) (sd : serial_data) (b : Int)
    (p : Char) (d s h : Int) (st : Sys σ) :
    ((serial_setparams os sd b p d s h st).1.tty.c_cflag &&& CSTOPB ≠ 0 ↔ s = 2)
    ∧ (s = 2 → (serial_setparams os sd b p d s h st).1.tty.c_cflag &&& CSTOPB = CSTOPB)
    ∧ (s ≠ 2 → (serial_setparams os sd b p d s h st).1.tty.c_cflag &&& CSTOPB = 0)
    ∧ ((serial_setparams os sd b p d s h st).1.tty.c_cflag &&& CRTSCTS ≠ 0 ↔ h ≠ 0)
    ∧ (h ≠ 0 → (serial_setparams os sd b p d s h st).1.tty.c_cflag &&& CRTSCTS = CRTSCTS)
    ∧ (h = 0 → (serial_setparams os sd b p d s h st).1.tty.c_cflag &&& CRTSCTS = 0) := by
  have hs := setparams_tty_stop sd.tty b p d s h
  have hh := setparams_tty_hw sd.tty b p d s h
  simp only [serial_setparams_tty]
  rw [hs, hh]
  refine ⟨?_, ?_, ?_, ?_, ?_, ?_⟩
  · by_cases h2 : s = 2
    · simp only [h2, if_true]; decide
    · simp [h2]
  · intro h2; rw [if_pos h2]
  · intro h2; rw [if_neg h2]
  · by_cases h0 : h = 0
    · simp [h0]
    · simp only [ne_eq, h0, not_false_eq_true, if_true, iff_true]; decide
  · intro h0; rw [if_pos h0]
  · intro h0; rw [if_neg (not_not.mpr h0)]

/-- Witness for C16: with `stopbits` 2 and `hwflow` 1 both bits are set;
with `stopbits` 3 and `hwflow` 0 both are clear. -/
theorem serial_setparams_stop_flow_witness :
    ((serial_setparams script_os dev_cooked 115200 'n' 8 2 1
        (Sys.start Script.init)).1.tty.c_cflag &&& CSTOPB = CSTOPB
      ∧ (serial_setparams script_os dev_cooked 115200 'n' 8 2 1
        (Sys.start Script.init)).1.tty.c_cflag &&& CRTSCTS = CRTSCTS)
    ∧ ((serial_setparams script_os dev_cooked 115200 'n' 8 3 0
        (Sys.start Script.init)).1.tty.c_cflag &&& CSTOPB = 0
      ∧ (serial_setparams script_os dev_cooked 115200 'n' 8 3 0
        (Sys.start Script.init)).1.tty.c_cflag &&& CRTSCTS = 0) := by
  have h1 := serial_setparams_stop_flow script_os dev_cooked 115200 'n' 8 2 1
    (Sys.start Script.init)
  have h2 := serial_setparams_stop_flow script_os dev_cooked 115200 'n' 8 3 0
    (Sys.start Script.init)
  exact ⟨⟨h1.2.1 rfl, h1.2.2.2.2.1 (by decide)⟩, ⟨h2.2.2.1 (by decide), h2.2.2.2.2.2 rfl⟩⟩

theorem serial_open_tty {σ : Type} (os : OS σ) (devname : CharPtr) (st : Sys σ)
    (sd : serial_data) (h : (serial_open os devname st).1 = some sd) :
    sd.tty = Termios.zero := by
  unfold serial_open at h
  simp only [] at h
  split at h
  · simp at h
  · simp only [Option.some.injEq] at h
    rw [← h]

theorem zero_config_rest (b : Int) :
    clear_bits (setparams_tty Termios.zero b 'n' 8 1 0).c_cflag (CBAUD ||| CBAUDEX)
      = CS8 ||| CLOCAL ||| CREAD := by
  by_cases hb : b ∈ baud_table.map Prod.fst
  · simp only [baud_table, List.map_cons, List.map_nil, List.mem_cons, List.mem_singleton,
      List.not_mem_nil, or_false] at hb
    rcases hb with h | h | h | h | h | h | h | h | h | h | h | h | h | h | h | h <;>
      (subst h; decide)
  · have hs := (baud_to_spd_other b hb).2
    unfold setparams_tty
    rw [hs]
    decide

theorem zero_config_fixed (b : Int) :
    FixedConfig (setparams_tty Termios.zero b 'n' 8 1 0) := by
  have hfr := setparams_tty_frame Termios.zero b 'n' 8 1 0
  refine ⟨?_, ?_, ?_, ?_, by rw [hfr], by rw [hfr], by rw [hfr], zero_config_rest b⟩
  · rw [setparams_tty_parity, set_parity_value]; decide
  · rw [setparams_tty_csize, set_databits_value]; rfl
  · rw [setparams_tty_stop]; decide
  · rw [setparams_tty_hw]; decide

theorem zero_config_speed (b : Int) (hb : b ∉ baud_table.map Prod.fst) :
    cfgetispeed (setparams_tty Termios.zero b 'n' 8 1 0) = B0
    ∧ cfgetospeed (setparams_tty Termios.zero b 'n' 8 1 0) = B0
    ∧ (setparams_tty Termios.zero b 'n' 8 1 0).c_ispeed = B0
    ∧ (setparams_tty Termios.zero b 'n' 8 1 0).c_ospeed = B0 := by
  have hs := (baud_to_spd_other b hb).2
  have hfr := setparams_tty_frame Termios.zero b 'n' 8 1 0
  have hi : (setparams_tty Termios.zero b 'n' 8 1 0).c_iflag = IGNBRK := by rw [hfr]
  have hbits : (setparams_tty Termios.zero b 'n' 8 1 0).c_cflag &&& (CBAUD ||| CBAUDEX)
      = 0 := by
    rw [setparams_tty_speed_bits, hs]
    decide
  refine ⟨?_, hbits, ?_, ?_⟩
  · unfold cfgetispeed
    rw [hi, hbits]
    decide
  · rw [hfr, hs]; rfl
  · rw [hfr, hs]; rfl

theorem main_setup_tty {σ : Type} (os : OS σ) (argv : List (List Char)) (st : Sys σ)
    (s1 s2 : serial_data) (h1 : (main_open1 os argv st).1 = some s1)
    (h2 : (main_open2 os argv st).1 = some s2) :
    (main_setup os argv st s1 s2).1.1.tty
      = setparams_tty Termios.zero ((main_parse (argv.getD 1 [])).baud.getD 0) 'n' 8 1 0
    ∧ (main_setup os argv st s1 s2).1.2.tty
      = setparams_tty Termios.zero ((main_parse (argv.getD 2 [])).baud.getD 0) 'n' 8 1 0 := by
  have e1 : s1.tty = Termios.zero := serial_open_tty os _ _ s1 h1
  have e2 : s2.tty = Termios.zero := serial_open_tty os _ _ s2 h2
  refine ⟨?_, ?_⟩
  · show setparams_tty s1.tty _ 'n' 8 1 0 = _
    rw [e1]
  · show setparams_tty s2.tty _ 'n' 8 1 0 = _
    rw [e2]

/-! ## The configuration `main` applies (C17, C19) -/

/-- C17: the working configuration of a handle that `serial_open` returned
is zeroed, whatever the device reported, so the configuration `main` builds
for each device is `serial_setparams` with `n`, 8, 1, 0 on the zeroed
configuration.  For every baud value it has no parity bit, `CSIZE = CS8`,
`CSTOPB` and `CRTSCTS` clear, `c_lflag = 0`, `c_oflag = 0`,
`c_iflag = IGNBRK`, and apart from the speed bits its `c_cflag` is exactly
`CS8 | CLOCAL | CREAD`. -/
theorem main_fixed_configuration {σ : Type} (os : OS σ) (argv : List (List Char))
    (st : Sys σ) (s1 s2 : serial_data) (h1 : (main_open1 os argv st).1 = some s1)
    (h2 : (main_open2 os argv st).1 = some s2) :
    s1.tty = Termios.zero ∧ s2.tty = Termios.zero
    ∧ (main_setup os argv st s1 s2).1.1.tty
      = setparams_tty Termios.zero ((main_parse (argv.getD 1 [])).baud.getD 0) 'n' 8 1 0
    ∧ (main_setup os argv st s1 s2).1.2.tty
      = setparams_tty Termios.zero ((main_parse (argv.getD 2 [])).baud.getD 0) 'n' 8 1 0
    ∧ FixedConfig (main_setup os argv st s1 s2).1.1.tty
    ∧ FixedConfig (main_setup os argv st s1 s2).1.2.tty
    ∧ (∀ b, FixedConfig (setparams_tty Termios.zero b 'n' 8 1 0))
    ∧ (main_setup os argv st s1 s2).2.trace
      = (main_open2 os argv st).2.trace ++
        [Event.tcflush s1.fd TCIOFLUSH,
         Event.tcsetattr s1.fd TCSANOW (main_setup os argv st s1 s2).1.1.tty,
         Event.tcflush s2.fd TCIOFLUSH,
         Event.tcsetattr s2.fd TCSANOW (main_setup os argv st s1 s2).1.2.tty] := by
  have ht := main_setup_tty os argv st s1 s2 h1 h2
  refine ⟨serial_open_tty os _ _ s1 h1, serial_open_tty os _ _ s2 h2, ht.1, ht.2, ?_, ?_,
    zero_config_fixed, ?_⟩
  · rw [ht.1]; exact zero_config_fixed _
  · rw [ht.2]; exact zero_config_fixed _
  · simp [main_setup, serial_setparams, Sys.emit, Sys.setWorld]

/-- Witness for C17: with two devices found in `cooked_tty`, the
configuration built for the first one (default baud 115200) has
`c_cflag = B115200 | CS8 | CLOCAL | CREAD`. -/
theorem main_fixed_configuration_witness :
    FixedConfig (main_setup script_os argv_two (Sys.start world_two_devices)
      { dev_a with old_tty := cooked_tty } { dev_b with old_tty := cooked_tty }).1.1.tty
    ∧ (main_setup script_os argv_two (Sys.start world_two_devices)
      { dev_a with old_tty := cooked_tty } { dev_b with old_tty := cooked_tty }).1.1.tty.c_cflag
      = B115200 ||| CS8 ||| CLOCAL ||| CREAD := by
  have h := main_fixed_configuration script_os argv_two (Sys.start world_two_devices)
    { dev_a with old_tty := cooked_tty } { dev_b with old_tty := cooked_tty } rfl rfl
  exact ⟨h.2.2.2.2.1, by decide⟩

/-- C19: when the baud value `main` parsed for a device is not in the lookup
table, the configuration `main` builds for that device has input and output
speed `B0`, the zero that `bzero` left: `cfgetispeed`, `cfgetospeed`,
`c_ispeed` and `c_ospeed` are all 0.  This is so for 9600, 19200 and 0; the
specification `/dev/x,9600` parses to 9600; and `B0` is neither `B9600`,
`B19200` nor `B115200`. -/
theorem main_unsupported_baud {σ : Type} (os : OS σ) (argv : List (List Char))
    (st : Sys σ) (s1 s2 : serial_data) (h1 : (main_open1 os argv st).1 = some s1)
    (h2 : (main_open2 os argv st).1 = some s2) :
    ((main_parse (argv.getD 1 [])).baud.getD 0 ∉ baud_table.map Prod.fst →
      cfgetispeed (main_setup os argv st s1 s2).1.1.tty = B0
      ∧ cfgetospeed (main_setup os argv st s1 s2).1.1.tty = B0
      ∧ (main_setup os argv st s1 s2).1.1.tty.c_ispeed = B0
      ∧ (main_setup os argv st s1 s2).1.1.tty.c_ospeed = B0)
    ∧ ((main_parse (argv.getD 2 [])).baud.getD 0 ∉ baud_table.map Prod.fst →
      cfgetispeed (main_setup os argv st s1 s2).1.2.tty = B0
      ∧ cfgetospeed (main_setup os argv st s1 s2).1.2.tty = B0
      ∧ (main_setup os argv st s1 s2).1.2.tty.c_ispeed = B0
      ∧ (main_setup os argv st s1 s2).1.2.tty.c_ospeed = B0)
    ∧ (9600 : Int) ∉ baud_table.map Prod.fst
    ∧ (19200 : Int) ∉ baud_table.map Prod.fst
    ∧ (0 : Int) ∉ baud_table.map Prod.fst
    ∧ (main_parse ['/', 'd', 'e', 'v', '/', 'x', ',', '9', '6', '0', '0']).baud = some 9600
    ∧ B0 ≠ B9600 ∧ B0 ≠ B19200 ∧ B0 ≠ B115200 := by
  have ht := main_setup_tty os argv st s1 s2 h1 h2
  refine ⟨?_, ?_, by decide, by decide, by decide, by rfl, by decide, by decide, by decide⟩
  · intro hb
    rw [ht.1]
    exact zero_config_speed _ hb
  · intro hb
    rw [ht.2]
    exact zero_config_speed _ hb

/-- Witness for C19: the second device is asked for 9600 baud; the
configuration built for it has input and output speed `B0`. -/
theorem main_unsupported_baud_witness :
    (main_parse (argv_9600.getD 2 [])).baud = some 9600
    ∧ cfgetispeed (main_setup script_os argv_9600 (Sys.start world_two_devices)
        { dev_a with old_tty := cooked_tty } { dev_b with old_tty := cooked_tty }).1.2.tty = B0
    ∧ cfgetospeed (main_setup script_os argv_9600 (Sys.start world_two_devices)
        { dev_a with old_tty := cooked_tty } { dev_b with old_tty := cooked_tty }).1.2.tty
      = B0 := by
  have h := (main_unsupported_baud script_os argv_9600 (Sys.start world_two_devices)
    { dev_a with old_tty := cooked_tty } { dev_b with old_tty := cooked_tty } rfl rfl).2.1
    (by decide)
  exact ⟨rfl, h.1, h.2.1⟩

/-! ## Both handles readable and the first at end of stream (C18) -/

/-- C18: in an iteration in which `select` is not fatal and both handles are
readable, when the read on the first handle returns zero or less, `quit` is
set but the block of the second handle still runs: it issues its read, and
when that read returns `n > 0` bytes it writes them to the first handle.
The loop returns only after that, with the state the whole iteration
produced. -/
theorem start_forward_second_still_read {σ : Type} (os : OS σ) (s1 s2 : serial_data)
    (st : Fwd σ) (hq : st.quit = 0)
    (hsel : select_fatal os (after_select os s1 s2 st).sys.world
      (select_ret os s1 s2 st) = false)
    (h1 : FD_ISSET s1.fd (ready_set os s1 s2 st) = true)
    (h2 : FD_ISSET s2.fd (ready_set os s1 s2 st) = true)
    (hr : (os.read (after_select os s1 s2 st).sys.world s1.fd 1024).2.1 ≤ 0) :
    (after_first os s1 s2 st).quit = 1
    ∧ (∃ rest, (forward_body os s1 s2 st).sys.trace
        = (after_first os s1 s2 st).sys.trace ++
          Event.read s2.fd 1024
            (os.read (after_first os s1 s2 st).sys.world s2.fd 1024).2.1
            ((os.read (after_first os s1 s2 st).sys.world s2.fd 1024).2.2.take 1024)
          :: rest)
    ∧ (∀ (w : σ) (n : Nat) (data : List Byte),
        os.read (after_first os s1 s2 st).sys.world s2.fd 1024 = (w, (n : Int), data) →
        1 ≤ n → n ≤ 1024 → data.length = n →
        (forward_body os s1 s2 st).sys.trace
          = (after_first os s1 s2 st).sys.trace ++
            [Event.read s2.fd 1024 n data, Event.write s1.fd data]
        ∧ (forward_body os s1 s2 st).sys.world = (os.write w s1.fd data).1)
    ∧ (forward_body os s1 s2 st).quit = 1
    ∧ ∀ fuel, forward_loop os s1 s2 (fuel + 1) st = some (forward_body os s1 s2 st) := by
  have hbody := forward_body_eq os s1 s2 st hsel
  have hmid : (after_first os s1 s2 st).quit = 1 :=
    (forward_from_end os s1 s2 _ _ h1 hr).1
  have hbq : (forward_body os s1 s2 st).quit = 1 := by
    rw [hbody]
    rcases forward_from_quit os s2 s1 (ready_set os s1 s2 st) (after_first os s1 s2 st)
      with h | h
    · rw [h, hmid]
    · exact h
  refine ⟨hmid, ?_, ?_, hbq, fun fuel => ?_⟩
  · rw [hbody]
    exact forward_from_reads os s2 s1 _ _ h2
  · intro w n data hread hn hn2 hlen
    rw [hbody, forward_from_data os s2 s1 _ _ w n data h2 hread hn hn2 hlen]
    exact ⟨rfl, rfl⟩
  · exact forward_loop_last os s1 s2 st hq (by rw [hbq]; decide) fuel

/-- Witness for C18: both descriptors are readable, descriptor 3 is at end
of stream and descriptor 4 delivers two bytes, which are written to
descriptor 3 before the loop returns. -/
theorem start_forward_second_still_read_witness :
    forward_loop script_os dev_a dev_b 8 (Fwd.enter world_first_eof_second_data)
      = some (forward_body script_os dev_a dev_b (Fwd.enter world_first_eof_second_data))
    ∧ (forward_body script_os dev_a dev_b (Fwd.enter world_first_eof_second_data)).sys.trace
      = [Event.select 5 [4, 3] 2, Event.read 3 1024 0 [],
         Event.printf (Msg.read_eof ['/', 'd', 'e', 'v', '/', 'a']),
         Event.read 4 1024 2 [111, 107], Event.write 3 [111, 107]] := by
  have h := start_forward_second_still_read script_os dev_a dev_b
    (Fwd.enter world_first_eof_second_data) rfl rfl rfl rfl (by decide)
  exact ⟨h.2.2.2.2 7, rfl⟩

/-! ## The first comma and `atoi` (C20) -/

/-- C20, as the code has it: for a specification `p,r` with `p` not empty
and free of commas and `r` not empty, `parse_serial_name` stores the path
`p`, whatever further commas `r` holds, and the baud `atoi` reads from `r`.
That baud is the signed value of the leading decimal digits of `r` (after
optional white space and sign, negated after a minus sign) whenever this
value lies between `-2^31` and `2^31 - 1`; in general it is this value
saturated to the range of `long` and reduced to 32 bits.  It is 0 when there
is no leading digit.  So `/dev/x,abc` gives baud 0, not the default, and
`/dev/x,9600,7` gives path `/dev/x` and baud 9600. -/
theorem parse_serial_name_first_comma (p r : List Char) (n0 : CharPtr) (b0 d : Int)
    (hp : ',' ∉ p) (hpne : p ≠ []) (hr : r ≠ []) :
    (parse_serial_name (p ++ ',' :: r) (some n0) (some b0) d).map (·.name)
      = some (CharPtr.str p)
    ∧ (-(2 ^ 31) ≤ leading_value r → leading_value r < 2 ^ 31 →
        (parse_serial_name (p ++ ',' :: r) (some n0) (some b0) d).map (·.baud)
          = some (some (leading_value r)))
    ∧ (parse_serial_name (p ++ ',' :: r) (some n0) (some b0) d).map (·.baud)
        = some (some (to_int (max LONG_MIN (min LONG_MAX (leading_value r)))))
    ∧ (leading_digits r = [] →
        (parse_serial_name (p ++ ',' :: r) (some n0) (some b0) d).map (·.baud)
          = some (some 0))
    ∧ parse_serial_name ['/', 'd', 'e', 'v', '/', 'x', ',', 'a', 'b', 'c']
          (some n0) (some b0) 115200
        = some { name := CharPtr.str ['/', 'd', 'e', 'v', '/', 'x'], baud := some 0 }
    ∧ parse_serial_name ['/', 'd', 'e', 'v', '/', 'x', ',', '9', '6', '0', '0', ',', '7']
          (some n0) (some b0) 115200
        = some { name := CharPtr.str ['/', 'd', 'e', 'v', '/', 'x'], baud := some 9600 } := by
  have hlen : p.length ≠ 0 := fun h0 => hpne (List.length_eq_zero.mp h0)
  have hparse : parse_serial_name (p ++ ',' :: r) (some n0) (some b0) d
      = some { name := CharPtr.str p, baud := some (atoi r) } := by
    rw [parse_serial_name_comma p r n0 _ d hp]
    simp [hlen, hr]
  refine ⟨by rw [hparse]; rfl, ?_, ?_, ?_, rfl, rfl⟩
  · intro h0 h1
    rw [hparse, ← atoi_leading_in_range r h0 h1]; rfl
  · rw [hparse, ← atoi_leading_value r]; rfl
  · intro hl
    have hv : leading_value r = 0 := by
      unfold leading_value
      rw [hl]
      simp [numeral_value]
    rw [hparse, atoi_leading_in_range r (by rw [hv]; decide) (by rw [hv]; decide), hv]; rfl

/-- Witness for the amended C20: the specification `/dev/x,-12,7` gives path
`/dev/x` and baud -12. -/
theorem parse_serial_name_first_comma_witness :
    (parse_serial_name ['/', 'd', 'e', 'v', '/', 'x', ',', '-', '1', '2', ',', '7']
        (some CharPtr.uninit) (some 0) 115200).map (·.name)
      = some (CharPtr.str ['/', 'd', 'e', 'v', '/', 'x'])
    ∧ (parse_serial_name ['/', 'd', 'e', 'v', '/', 'x', ',', '-', '1', '2', ',', '7']
        (some CharPtr.uninit) (some 0) 115200).map (·.baud) = some (some (-12)) := by
  have h := parse_serial_name_first_comma ['/', 'd', 'e', 'v', '/', 'x']
    ['-', '1', '2', ',', '7'] CharPtr.uninit 0 115200 (by decide) (by decide) (by decide)
  exact ⟨h.1, (h.2.1 (by decide) (by decide)).trans (by decide)⟩

/-- Counterexample to C20 as stated: in the specification
`/dev/x,4294967296` the part after the comma has no white space or sign, its
leading decimal digits write 4294967296, and the baud that
`parse_serial_name` stores is 0. -/
theorem parse_serial_name_first_comma_overflow :
    spec_too_large = ['/', 'd', 'e', 'v', '/', 'x'] ++ ',' :: spec_too_large.drop 7
    ∧ leading_digits (spec_too_large.drop 7) = spec_too_large.drop 7
    ∧ has_minus (spec_too_large.drop 7) = false
    ∧ leading_value (spec_too_large.drop 7) = 4294967296
    ∧ (parse_serial_name spec_too_large (some CharPtr.uninit) (some 0) 115200).map (·.name)
        = some (CharPtr.str ['/', 'd', 'e', 'v', '/', 'x'])
    ∧ (parse_serial_name spec_too_large (some CharPtr.uninit) (some 0) 115200).map (·.baud)
        = some (some 0)
    ∧ (parse_serial_name spec_too_large (some CharPtr.uninit) (some 0) 115200).map (·.baud)
        ≠ some (some (leading_value (spec_too_large.drop 7))) := by
  refine ⟨by decide, by decide, by decide, by decide, by decide, by decide, by decide⟩

end TtyForward
